import Mathlib

/-!
Shallow embedding of the budgy-document-processor transaction pipeline
(src/categorizer.py, src/category_taxonomy.py, src/pdf_extractor.py,
src/main.py) together with proofs settling the frozen specification
claims.  Strings are modelled as lists of characters; Python floats are
modelled as rationals (every amount reaching arithmetic in the sources is
a decimal with at most two fraction digits, where rational and binary
floating point arithmetic agree); regular-expression searches are
modelled by explicit backtracking matchers that follow the leftmost-match,
greedy/lazy semantics of the CPython re module for the concrete patterns
appearing in the sources.
-/

namespace Budgy

attribute [local semireducible] Rat.add Rat.mul Rat.inv Rat.sub Rat.ofScientific

/-- Python str.lower for one character, covering ASCII and the Turkish
letters that occur in the repository. CPython lowercases the dotted
capital I to the two-character sequence i followed by U+0307. -/
def pyLowerChar (c : Char) : List Char :=
  if 'A' ≤ c ∧ c ≤ 'Z' then [Char.ofNat (c.toNat + 32)]
  else if c = 'Ç' then ['ç']
  else if c = 'Ğ' then ['ğ']
  else if c = 'İ' then ['i', '̇']
  else if c = 'Ö' then ['ö']
  else if c = 'Ş' then ['ş']
  else if c = 'Ü' then ['ü']
  else [c]

/-- Python str.lower on a character list. -/
def pyLowerL (s : List Char) : List Char :=
  s.flatMap pyLowerChar

/-- Characters treated as whitespace by Python str.strip and by the regex
class used in the sources (ASCII whitespace plus the no-break space). -/
def isSpaceC (c : Char) : Bool :=
  c = ' ' || c = '\t' || c = '\n' || c = '\x0d' || c = '\x0b' || c = '\x0c' || c = ' '

/-- Decimal digit test. -/
def isDigitC (c : Char) : Bool :=
  '0' ≤ c && c ≤ '9'

/-- Word characters for the regex word-boundary assertion: ASCII
alphanumerics, the underscore, and the Turkish letters occurring in the
sources (the inputs of interest contain no other non-ASCII text). -/
def isWordC (c : Char) : Bool :=
  ('a' ≤ c && c ≤ 'z') || ('A' ≤ c && c ≤ 'Z') || isDigitC c || c = '_' ||
    c ∈ ['Ç', 'Ğ', 'İ', 'Ö', 'Ş', 'Ü', 'ç', 'ğ', 'ı', 'ö', 'ş', 'ü']

/-- Letters admitted by the month-name character class
A-Za-zÇĞİÖŞÜçğıöşü of DATE_PATTERN in src/pdf_extractor.py. -/
def isNameLetter (c : Char) : Bool :=
  ('a' ≤ c && c ≤ 'z') || ('A' ≤ c && c ≤ 'Z') ||
    c ∈ ['Ç', 'Ğ', 'İ', 'Ö', 'Ş', 'Ü', 'ç', 'ğ', 'ı', 'ö', 'ş', 'ü']

/-- Python str.strip: drop whitespace from both ends. -/
def pyStrip (s : List Char) : List Char :=
  ((s.dropWhile isSpaceC).reverse.dropWhile isSpaceC).reverse

/-- Test whether the first list is a leading segment of the second. -/
def startsWithL : List Char → List Char → Bool
  | [], _ => true
  | _ :: _, [] => false
  | p :: ps, c :: cs => p = c && startsWithL ps cs

/-- Python substring containment, the in operator on str: an empty needle
is contained in everything. -/
def isSub (n : List Char) : List Char → Bool
  | [] => n.isEmpty
  | c :: t => startsWithL n (c :: t) || isSub n t

/-- Fuel-driven worker for Python str.replace. -/
def replaceAllAux (old new : List Char) : Nat → List Char → List Char
  | 0, s => s
  | _ + 1, [] => []
  | fuel + 1, c :: t =>
    if startsWithL old (c :: t) then
      new ++ replaceAllAux old new fuel ((c :: t).drop old.length)
    else
      c :: replaceAllAux old new fuel t

/-- Python str.replace(old, new) for a non-empty old, scanning left to
right without overlap.  The sources only call replace with non-empty
search strings, and with new equal to the empty string the degenerate
empty-old case also returns the input unchanged, as modelled here. -/
def replaceAll (old new s : List Char) : List Char :=
  if old.isEmpty then s else replaceAllAux old new (s.length + 1) s

/-- Python str.split on a single newline character: text.split of
src/main.py. -/
def splitOnNl : List Char → List (List Char)
  | [] => [[]]
  | c :: t =>
    if c = '\n' then [] :: splitOnNl t
    else
      match splitOnNl t with
      | [] => [[c]]
      | l :: ls => (c :: l) :: ls

/-- Worker for Python str.splitlines, recognising the terminators
newline, carriage return, and the pair carriage return plus newline. -/
def splitLinesAux : List Char → List Char → List (List Char)
  | acc, [] => if acc.isEmpty then [] else [acc.reverse]
  | acc, '\x0d' :: '\n' :: t => acc.reverse :: splitLinesAux [] t
  | acc, '\x0d' :: t => acc.reverse :: splitLinesAux [] t
  | acc, '\n' :: t => acc.reverse :: splitLinesAux [] t
  | acc, c :: t => splitLinesAux (c :: acc) t

/-- Python str.splitlines used by extract_from_text_lines: no trailing
empty line is produced. -/
def splitLinesPy (s : List Char) : List (List Char) :=
  splitLinesAux [] s

/-- Decimal digit character for a value below ten. -/
def digitChar (n : Nat) : Char :=
  Char.ofNat (48 + n)

/-- Fuel-driven decimal rendering of a natural number. -/
def natCharsAux : Nat → Nat → List Char
  | 0, _ => []
  | fuel + 1, n =>
    if n < 10 then [digitChar n]
    else natCharsAux fuel (n / 10) ++ [digitChar (n % 10)]

/-- Decimal rendering of a natural number, as Python str of an int. -/
def natChars (n : Nat) : List Char :=
  natCharsAux (n + 1) n

/-- Python str.zfill style left padding with zeros up to a width. -/
def padZero (w : Nat) (s : List Char) : List Char :=
  List.replicate (w - s.length) '0' ++ s

/-- Numeric value of a digit list, most significant first. -/
def digitsVal (s : List Char) : Nat :=
  s.foldl (fun a c => 10 * a + (c.toNat - 48)) 0

/-- Remove every occurrence of one character, Python str.replace with an
empty replacement on a single character. -/
def dropChar (x : Char) (l : List Char) : List Char :=
  l.filter (fun c => c ≠ x)

/-- Replace a separator character by the decimal dot. -/
def sepToDot (d : Char) (l : List Char) : List Char :=
  l.map (fun c => if c = d then '.' else c)

/-- Python float(s) on the strings reaching it in clean_amount_to_float:
after cleaning they consist of digits and dots only.  Accepted shapes are
an optional integer part, an optional single dot, and an optional
fraction part, with at least one digit overall; anything else raises
ValueError in Python and yields none here. -/
def pyFloatOpt (s : List Char) : Option ℚ :=
  let ip := s.takeWhile (fun c => c ≠ '.')
  let rest := s.drop ip.length
  let fp := rest.drop 1
  if ip.all isDigitC ∧ fp.all isDigitC ∧ (rest = [] ∨ rest.take 1 = ['.'])
      ∧ (ip ≠ [] ∨ fp ≠ []) then
    some ((digitsVal ip : ℚ) + (digitsVal fp : ℚ) / ((10 : ℚ) ^ fp.length))
  else
    none

/-- Index of the last occurrence of a character, Python str.rfind with -1
for absence represented as none. -/
def rfindC (c : Char) (s : List Char) : Option Nat :=
  let rev := s.reverse
  match rev.findIdx? (fun x => x = c) with
  | some i => some (s.length - 1 - i)
  | none => none

/-- Comparison mirroring last_dot > last_comma on Python rfind results,
where absence is the value -1. -/
def rfindGt (a b : Option Nat) : Bool :=
  match a, b with
  | some i, some j => j < i
  | some _, none => true
  | none, _ => false

/-- The character filter of clean_amount_to_float: re.sub keeping only
digits, commas, dots and minus signs. -/
def amountKeep (c : Char) : Bool :=
  isDigitC c || c = ',' || c = '.' || c = '-'

/-- Embedding of clean_amount_to_float of src/pdf_extractor.py: convert a
localized amount string to a number, preserving sign.  Negativity is
detected from surrounding parentheses or a leading ASCII or Unicode
minus; then everything but digits, commas, dots and minus signs is
dropped; the later of the last dot and last comma is taken as the decimal
separator, the other as a thousands separator. -/
def cleanAmountToFloat (amount : List Char) : Option ℚ :=
  if amount = [] then none else
  let s := pyStrip amount
  let negative := (s.contains '(' && s.contains ')') ||
    (s.take 1 = ['-'] || s.take 1 = ['−'])
  let s := s.filter amountKeep
  if s = [] then none else
  let lastDot := rfindC '.' s
  let lastComma := rfindC ',' s
  let value? :=
    if lastDot = none ∧ lastComma = none then
      pyFloatOpt (dropChar '-' s)
    else
      let decSep : Char := if rfindGt lastDot lastComma then '.' else ','
      let thouSep : Char := if rfindGt lastDot lastComma then ',' else '.'
      let sClean := dropChar thouSep s
      let sClean := if decSep = ',' then sepToDot ',' sClean else sClean
      pyFloatOpt (dropChar '-' sClean)
  match value? with
  | none => none
  | some v => some (if negative then -v else v)

/-- Python format f with two fraction digits, exact on the two-decimal
values produced by the extractor (every amount parsed from the statement
patterns is an integer number of hundredths, where binary floating point
formatting and this rational formatting agree). -/
def format2 (q : ℚ) : List Char :=
  let neg := q < 0
  let k : ℤ := ⌊100 * |q| + 1 / 2⌋
  let ip := natChars (k.toNat / 100)
  let fp := padZero 2 (natChars (k.toNat % 100))
  (if neg then ['-'] else []) ++ ip ++ ['.'] ++ fp

/-- Gregorian leap year rule, as datetime. -/
def isLeap (y : Nat) : Bool :=
  (y % 4 = 0 && y % 100 ≠ 0) || y % 400 = 0

/-- Days in a month, as datetime. -/
def daysInMonth (y m : Nat) : Nat :=
  if m = 2 then (if isLeap y then 29 else 28)
  else if m = 4 ∨ m = 6 ∨ m = 9 ∨ m = 11 then 30
  else 31

/-- Validity of a calendar date under the constructor datetime(y, m, d),
which accepts years 1 through 9999. -/
def validYMD (y m d : Nat) : Bool :=
  1 ≤ y && y ≤ 9999 && 1 ≤ m && m ≤ 12 && 1 ≤ d && d ≤ daysInMonth y m

/-- Python strftime with the Y-m-d layout: zero-padded ISO date. -/
def formatIso (y m d : Nat) : List Char :=
  padZero 4 (natChars y) ++ '-' :: (padZero 2 (natChars m) ++ '-' :: padZero 2 (natChars d))

/-- Shape test for the two-digit day alternatives of the strptime d
directive: 30 and 31, 10 through 29, 01 through 09. -/
def dayTwoOk (a b : Char) : Bool :=
  (a = '3' && (b = '0' || b = '1')) || a = '1' || a = '2' || (a = '0' && b ≠ '0')

/-- Shape test for the two-digit month alternatives of the strptime m
directive: 10 through 12, 01 through 09. -/
def monthTwoOk (a b : Char) : Bool :=
  (a = '1' && (b = '0' || b = '1' || b = '2')) || (a = '0' && b ≠ '0')

/-- Candidate day tokens in the backtracking order of the regex built by
strptime for the d directive: the two-digit alternatives come before the
single-digit one. -/
def dayTokCands : List Char → List (Nat × List Char)
  | a :: b :: t =>
    (if isDigitC a && isDigitC b && dayTwoOk a b
      then [(10 * (a.toNat - 48) + (b.toNat - 48), t)] else []) ++
    (if '1' ≤ a && a ≤ '9' then [(a.toNat - 48, b :: t)] else [])
  | [a] => if '1' ≤ a && a ≤ '9' then [(a.toNat - 48, [])] else []
  | [] => []

/-- Candidate month tokens in the backtracking order of the regex built
by strptime for the m directive. -/
def monTokCands : List Char → List (Nat × List Char)
  | a :: b :: t =>
    (if isDigitC a && isDigitC b && monthTwoOk a b
      then [(10 * (a.toNat - 48) + (b.toNat - 48), t)] else []) ++
    (if '1' ≤ a && a ≤ '9' then [(a.toNat - 48, b :: t)] else [])
  | [a] => if '1' ≤ a && a ≤ '9' then [(a.toNat - 48, [])] else []
  | [] => []

/-- First defined value in a list of options. -/
def firstSome : List (Option α) → Option α
  | [] => none
  | x :: t => match x with
    | some a => some a
    | none => firstSome t

/-- Year field of a numeric strptime format: the Y directive takes
exactly four digits, the y directive exactly two with the 69 pivot, and
the whole input must be consumed. -/
def yearTokEnd (year4 : Bool) : List Char → Option Nat
  | [y1, y2, y3, y4] =>
    if year4 && ([y1, y2, y3, y4].all isDigitC) then some (digitsVal [y1, y2, y3, y4])
    else none
  | [y1, y2] =>
    if !year4 && isDigitC y1 && isDigitC y2 then
      let yy := digitsVal [y1, y2]
      some (if yy ≤ 68 then 2000 + yy else 1900 + yy)
    else none
  | _ => none

/-- Embedding of one numeric datetime.strptime attempt with the layout
day, separator, month, separator, year; returns the parsed fields of the
first regex match, before calendar validation. -/
def strpNumericRaw (sep : Char) (year4 : Bool) (cs : List Char) : Option (Nat × Nat × Nat) :=
  firstSome ((dayTokCands cs).map (fun dc =>
    match dc.2 with
    | s1 :: r2 =>
      if s1 = sep then
        firstSome ((monTokCands r2).map (fun mc =>
          match mc.2 with
          | s2 :: r4 =>
            if s2 = sep then
              (yearTokEnd year4 r4).map (fun y => (y, mc.1, dc.1))
            else none
          | [] => none))
      else none
    | [] => none))

/-- A numeric strptime attempt including the calendar validation done by
the datetime constructor. -/
def strpNumeric (sep : Char) (year4 : Bool) (cs : List Char) : Option (Nat × Nat × Nat) :=
  match strpNumericRaw sep year4 cs with
  | some (y, m, d) => if validYMD y m d then some (y, m, d) else none
  | none => none

/-- ASCII lowercase map used when strptime compares month names case
insensitively. -/
def asciiLower (c : Char) : Char :=
  if 'A' ≤ c && c ≤ 'Z' then Char.ofNat (c.toNat + 32) else c

/-- Full English month names with their numbers, ordered by length as in
the regex strptime builds for the B directive. -/
def monthsFull : List (List Char × Nat) :=
  [("september".data, 9), ("february".data, 2), ("november".data, 11),
   ("december".data, 12), ("january".data, 1), ("october".data, 10),
   ("august".data, 8), ("march".data, 3), ("april".data, 4),
   ("june".data, 6), ("july".data, 7), ("may".data, 5)]

/-- Abbreviated English month names for the b directive. -/
def monthsAbbr : List (List Char × Nat) :=
  [("jan".data, 1), ("feb".data, 2), ("mar".data, 3), ("apr".data, 4),
   ("may".data, 5), ("jun".data, 6), ("jul".data, 7), ("aug".data, 8),
   ("sep".data, 9), ("oct".data, 10), ("nov".data, 11), ("dec".data, 12)]

/-- Match one month name from the table against a case-folded input
suffix; no table name is a proper leading segment of another, so the
first hit is the only one. -/
def matchMonthName (names : List (List Char × Nat)) (cs : List Char) : Option (Nat × List Char) :=
  match names with
  | [] => none
  | (nm, v) :: t =>
    if startsWithL nm (cs.map asciiLower) then some (v, cs.drop nm.length)
    else matchMonthName t cs

/-- Embedding of a month-name datetime.strptime attempt with the layout
day, whitespace, month name, whitespace, four-digit year (the literal
space in a strptime format matches a nonempty whitespace run). -/
def strpMonthName (names : List (List Char × Nat)) (cs : List Char) : Option (Nat × Nat × Nat) :=
  firstSome ((dayTokCands cs).map (fun dc =>
    let sp1 := dc.2.takeWhile isSpaceC
    if sp1 = [] then none else
    match matchMonthName names (dc.2.drop sp1.length) with
    | some (mo, r3) =>
      let sp2 := r3.takeWhile isSpaceC
      if sp2 = [] then none else
      match yearTokEnd true (r3.drop sp2.length) with
      | some y => if validYMD y mo dc.1 then some (y, mo, dc.1) else none
      | none => none
    | none => none))

/-- Turkish month-name table of parse_date. -/
def monthsTr : List (List Char × Nat) :=
  [("ocak".data, 1), ("şubat".data, 2), ("mart".data, 3), ("nisan".data, 4),
   ("mayıs".data, 5), ("haziran".data, 6), ("temmuz".data, 7), ("ağustos".data, 8),
   ("eylül".data, 9), ("ekim".data, 10), ("kasım".data, 11), ("aralık".data, 12)]

/-- Exact lookup in an association list over character lists. -/
def lookupL (key : List Char) : List (List Char × Nat) → Option Nat
  | [] => none
  | (k, v) :: t => if k = key then some v else lookupL key t

/-- Embedding of the manual Turkish branch of parse_date: an anchored
match of digits, whitespace, letters, whitespace, two to four digits,
with trailing input ignored, the below-100 year mapped into the 2000s,
the lowered name looked up in the Turkish table, and the datetime
constructor validating the result. -/
def turkishParse (cs : List Char) : Option (List Char) :=
  let r := cs.takeWhile isDigitC
  if r.length = 0 ∨ r.length > 2 then none else
  let rest := cs.drop r.length
  let sp1 := rest.takeWhile isSpaceC
  if sp1 = [] then none else
  let rest2 := rest.drop sp1.length
  let letters := rest2.takeWhile isNameLetter
  if letters = [] then none else
  let rest3 := rest2.drop letters.length
  let sp2 := rest3.takeWhile isSpaceC
  if sp2 = [] then none else
  let rest4 := rest3.drop sp2.length
  let r2 := rest4.takeWhile isDigitC
  if r2.length < 2 then none else
  let yearRaw := digitsVal (r2.take 4)
  let year := if yearRaw < 100 then yearRaw + 2000 else yearRaw
  match lookupL (pyLowerL letters) monthsTr with
  | some mo =>
    if validYMD year mo (digitsVal r) then some (formatIso year mo (digitsVal r)) else none
  | none => none

/-- The input cleaning of parse_date of src/pdf_extractor.py: strip,
then replace remaining no-break spaces with plain spaces. -/
def dateTextClean (s : List Char) : List Char :=
  (pyStrip s).map (fun c => if c = ' ' then ' ' else c)

/-- Embedding of parse_date of src/pdf_extractor.py: clean the input,
then try the numeric formats, the English month-name formats, and the
manual Turkish handling, in source order; the first successful parse is
rendered as an ISO date and failure yields none. -/
def parseDate (s : List Char) : Option (List Char) :=
  if s = [] then none else
  let text := dateTextClean s
  let tries : List (Option (Nat × Nat × Nat)) :=
    [strpNumeric '.' true text, strpNumeric '.' false text,
     strpNumeric '/' true text, strpNumeric '/' false text,
     strpNumeric '-' true text, strpNumeric '-' false text,
     strpMonthName monthsFull text, strpMonthName monthsAbbr text]
  match firstSome tries with
  | some (y, m, d) => some (formatIso y m d)
  | none => turkishParse text

/-- INCOME_MAIN of src/category_taxonomy.py. -/
def INCOME_MAIN : List String :=
  ["Salary & Wages", "Business & Freelance", "Investments", "Rental & Property",
   "Government & Benefits", "Gifts & Grants", "Refunds & Adjustments", "Other Income"]

/-- INCOME_SUB of src/category_taxonomy.py. -/
def INCOME_SUB : List (String × List String) :=
  [("Salary & Wages", ["Base Salary", "Bonuses", "Overtime", "Commissions", "Tips"]),
   ("Business & Freelance", ["Client Payments", "Project Income", "Consulting Fees", "Sales Revenue"]),
   ("Investments", ["Dividends", "Interest Income", "Capital Gains", "Bond Income"]),
   ("Rental & Property", ["Residential Rent", "Commercial Rent", "Short-Term Rental (e.g., Airbnb)"]),
   ("Government & Benefits", ["Pension", "Unemployment Benefits", "Child Support", "Social Security"]),
   ("Gifts & Grants", ["Monetary Gifts", "Scholarships", "Grants", "Inheritance"]),
   ("Refunds & Adjustments", ["Tax Refunds", "Purchase Refunds", "Cashback"]),
   ("Other Income", ["Lottery/Prize", "Insurance Payouts", "Cryptocurrency Gains"])]

/-- EXPENSE_MAIN of src/category_taxonomy.py. -/
def EXPENSE_MAIN : List String :=
  ["Housing & Utilities", "Food & Groceries", "Transportation", "Debts & Liabilities",
   "Insurance", "Healthcare & Wellness", "Education & Learning", "Shopping & Personal Care",
   "Entertainment & Leisure", "Travel & Holidays", "Gifts & Donations", "Taxes & Fees",
   "Business Expenses", "Savings & Investments", "Miscellaneous"]

/-- EXPENSE_SUB of src/category_taxonomy.py. -/
def EXPENSE_SUB : List (String × List String) :=
  [("Housing & Utilities", ["Rent/Mortgage", "Property Tax", "Water", "Electricity", "Gas", "Internet", "Phone"]),
   ("Food & Groceries", ["Groceries", "Dining Out", "Coffee/Tea", "Snacks"]),
   ("Transportation", ["Fuel", "Public Transport", "Ride-Hailing", "Vehicle Maintenance", "Tolls & Parking"]),
   ("Debts & Liabilities", ["Credit Card Payment", "Loan Payment", "Mortgage Payment", "Overdraft Fees"]),
   ("Insurance", ["Health", "Life", "Vehicle", "Property", "Travel"]),
   ("Healthcare & Wellness", ["Doctor Visits", "Medicines", "Dental Care", "Therapy", "Fitness & Gym"]),
   ("Education & Learning", ["Tuition", "Courses", "Books", "Supplies"]),
   ("Shopping & Personal Care", ["Clothing", "Accessories", "Electronics", "Personal Care", "Cosmetics"]),
   ("Entertainment & Leisure", ["Subscriptions (Netflix, Spotify)", "Movies", "Events", "Gaming"]),
   ("Travel & Holidays", ["Flights", "Accommodation", "Local Transport", "Activities"]),
   ("Gifts & Donations", ["Charitable Donations", "Monetary Gifts", "Non-Cash Gifts"]),
   ("Taxes & Fees", ["Income Tax", "Property Tax", "Service Charges", "Penalties"]),
   ("Business Expenses", ["Office Rent", "Software", "Marketing", "Equipment", "Professional Fees"]),
   ("Savings & Investments", ["Savings Deposit", "Retirement Fund", "Stock Purchase", "Crypto Purchase"]),
   ("Miscellaneous", ["Unplanned Purchases", "Pet Care", "Home Maintenance"])]

/-- ALL_MAIN of src/category_taxonomy.py. -/
def ALL_MAIN : List String :=
  INCOME_MAIN ++ EXPENSE_MAIN

/-- MCC_MAP of src/category_taxonomy.py. -/
def MCC_MAP : List (String × String × String) :=
  [("5411", "Food & Groceries", "Groceries"),
   ("5541", "Transportation", "Fuel"),
   ("5812", "Food & Groceries", "Dining Out"),
   ("5814", "Food & Groceries", "Dining Out"),
   ("4111", "Transportation", "Public Transport"),
   ("4899", "Housing & Utilities", "Internet"),
   ("4814", "Housing & Utilities", "Phone"),
   ("5732", "Shopping & Personal Care", "Electronics")]

/-- KEYWORD_MAP of src/category_taxonomy.py, in dictionary insertion
order (the order is observable through the stable tie-break sort). -/
def KEYWORD_MAP : List (String × String × String) :=
  [("migros", "Food & Groceries", "Groceries"),
   ("carrefour", "Food & Groceries", "Groceries"),
   ("a101", "Food & Groceries", "Groceries"),
   ("bim", "Food & Groceries", "Groceries"),
   ("şok", "Food & Groceries", "Groceries"),
   ("sok", "Food & Groceries", "Groceries"),
   ("getir", "Food & Groceries", "Groceries"),
   ("banabi", "Food & Groceries", "Groceries"),
   ("yemeksepeti", "Food & Groceries", "Dining Out"),
   ("trendyol yemek", "Food & Groceries", "Dining Out"),
   ("kahve", "Food & Groceries", "Coffee/Tea"),
   ("starbucks", "Food & Groceries", "Coffee/Tea"),
   ("cafe", "Food & Groceries", "Dining Out"),
   ("restaurant", "Food & Groceries", "Dining Out"),
   ("uber", "Transportation", "Ride-Hailing"),
   ("bitaksi", "Transportation", "Ride-Hailing"),
   ("iett", "Transportation", "Public Transport"),
   ("metro ist", "Transportation", "Public Transport"),
   ("havabus", "Transportation", "Public Transport"),
   ("taksi", "Transportation", "Ride-Hailing"),
   ("opet", "Transportation", "Fuel"),
   ("shell", "Transportation", "Fuel"),
   ("bp", "Transportation", "Fuel"),
   ("total", "Transportation", "Fuel"),
   ("aytemiz", "Transportation", "Fuel"),
   ("petrol ofisi", "Transportation", "Fuel"),
   ("hepsiburada", "Shopping & Personal Care", "Electronics"),
   ("trendyol", "Shopping & Personal Care", "Clothing"),
   ("n11", "Shopping & Personal Care", "Electronics"),
   ("amazon", "Shopping & Personal Care", "Electronics"),
   ("boyner", "Shopping & Personal Care", "Clothing"),
   ("decathlon", "Shopping & Personal Care", "Accessories"),
   ("flo", "Shopping & Personal Care", "Clothing"),
   ("koton", "Shopping & Personal Care", "Clothing"),
   ("zara", "Shopping & Personal Care", "Clothing"),
   ("hm ", "Shopping & Personal Care", "Clothing"),
   ("elektrik", "Housing & Utilities", "Electricity"),
   ("doğalgaz", "Housing & Utilities", "Gas"),
   ("dogalgaz", "Housing & Utilities", "Gas"),
   ("su faturası", "Housing & Utilities", "Water"),
   ("su fatura", "Housing & Utilities", "Water"),
   ("internet", "Housing & Utilities", "Internet"),
   ("turkcell", "Housing & Utilities", "Phone"),
   ("vodafone", "Housing & Utilities", "Phone"),
   ("turktelekom", "Housing & Utilities", "Phone"),
   ("ttnet", "Housing & Utilities", "Internet"),
   ("kira", "Housing & Utilities", "Rent/Mortgage"),
   ("ev kirası", "Housing & Utilities", "Rent/Mortgage"),
   ("aidat", "Housing & Utilities", "Home Maintenance"),
   ("eczane", "Healthcare & Wellness", "Medicines"),
   ("hastane", "Healthcare & Wellness", "Doctor Visits"),
   ("hospital", "Healthcare & Wellness", "Doctor Visits"),
   ("sigorta", "Insurance", "Vehicle"),
   ("okul", "Education & Learning", "Tuition"),
   ("üniversite", "Education & Learning", "Tuition"),
   ("kurs", "Education & Learning", "Courses"),
   ("sinema", "Entertainment & Leisure", "Movies"),
   ("cinema", "Entertainment & Leisure", "Movies"),
   ("spotify", "Entertainment & Leisure", "Subscriptions (Netflix, Spotify)"),
   ("netflix", "Entertainment & Leisure", "Subscriptions (Netflix, Spotify)"),
   ("youtube", "Entertainment & Leisure", "Subscriptions (Netflix, Spotify)"),
   ("blutv", "Entertainment & Leisure", "Subscriptions (Netflix, Spotify)"),
   ("exxen", "Entertainment & Leisure", "Subscriptions (Netflix, Spotify)"),
   ("pegasus", "Travel & Holidays", "Flights"),
   ("thy", "Travel & Holidays", "Flights"),
   ("turkish airlines", "Travel & Holidays", "Flights"),
   ("booking", "Travel & Holidays", "Accommodation"),
   ("airbnb", "Travel & Holidays", "Accommodation"),
   ("eft", "Debts & Liabilities", "Credit Card Payment"),
   ("havale", "Debts & Liabilities", "Loan Payment"),
   ("fast ", "Debts & Liabilities", "Credit Card Payment"),
   ("iban", "Debts & Liabilities", "Loan Payment"),
   ("para transfer", "Debts & Liabilities", "Loan Payment"),
   ("virman", "Debts & Liabilities", "Loan Payment"),
   ("nakit çekim", "Transportation", "Tolls & Parking"),
   ("atm", "Transportation", "Tolls & Parking"),
   ("maas", "Salary & Wages", "Base Salary"),
   ("maaş", "Salary & Wages", "Base Salary"),
   ("salary", "Salary & Wages", "Base Salary"),
   ("ucret", "Salary & Wages", "Base Salary"),
   ("ücret", "Salary & Wages", "Base Salary"),
   ("komisyon", "Taxes & Fees", "Service Charges"),
   ("hesap işletim", "Taxes & Fees", "Service Charges"),
   ("isletim ücreti", "Taxes & Fees", "Service Charges"),
   ("bsmv", "Taxes & Fees", "Income Tax"),
   ("kkdf", "Taxes & Fees", "Income Tax"),
   ("vergi", "Taxes & Fees", "Income Tax")]

/-- Lookup in the sub-category tables, Python dictionary membership and
indexing. -/
def lookupSubs (m : String) : List (String × List String) → Option (List String)
  | [] => none
  | (k, v) :: t => if k = m then some v else lookupSubs m t

/-- Lookup in MCC_MAP by four-digit code. -/
def lookupMcc (code : String) : List (String × String × String) → Option (String × String)
  | [] => none
  | (k, m, s) :: t => if k = code then some (m, s) else lookupMcc code t

/-- A user categorization rule as consumed by categorize; absent pattern,
category or sub-category dictionary entries are the empty string and an
absent or zero weight behaves as the Python falsy default. -/
structure UserRule where
  pattern : String
  category_main : String
  category_sub : String
  weight : ℚ
deriving DecidableEq, Repr

/-- The weight default of _by_user_rules: r.get of weight or 1.0, where a
falsy zero also yields the default. -/
def ruleWeight (r : UserRule) : ℚ :=
  if r.weight = 0 then 1 else r.weight

/-- The normalization _norm of src/categorizer.py: strip then lower. -/
def pyNorm (s : List Char) : List Char :=
  pyLowerL (pyStrip s)

/-- Pick the first hit among those maximal for the pair pattern length
then weight: the stable descending sort of _by_user_rules followed by
taking the head. -/
def bestRuleHit : (Nat × String × String × ℚ) → List (Nat × String × String × ℚ) → String × String
  | cur, [] => (cur.2.1, cur.2.2.1)
  | cur, h :: t =>
    if cur.1 < h.1 ∨ (h.1 = cur.1 ∧ cur.2.2.2 < h.2.2.2) then bestRuleHit h t
    else bestRuleHit cur t

/-- Embedding of _by_user_rules: collect the rules whose normalized
non-empty pattern occurs in the description, then choose by longest
pattern and then weight, ties resolved in favour of the earlier rule. -/
def byUserRules (descLc : List Char) (rules : List UserRule) : Option (String × String) :=
  let hits := rules.filterMap (fun r =>
    let p := pyNorm r.pattern.data
    if p ≠ [] ∧ isSub p descLc then
      some (p.length, r.category_main, r.category_sub, ruleWeight r)
    else none)
  match hits with
  | [] => none
  | h :: t => some (bestRuleHit h t)

/-- Word-boundary test between an optional preceding character and an
optional following character. -/
def atBoundary (prev next : Option Char) : Bool :=
  (match prev with | some c => isWordC c | none => false) ≠
    (match next with | some c => isWordC c | none => false)

/-- Matcher for the pattern of _MCC_RX at one position: a word boundary,
the letters mcc, an optional non-word character (tried first, as the
greedy question mark does), four digits, and a trailing word boundary;
the captured group is the code. -/
def mccMatchAt (prev : Option Char) (cs : List Char) : Option (List Char) :=
  match cs with
  | 'm' :: 'c' :: 'c' :: rest =>
    if atBoundary prev (some 'm') then
      let grab : List Char → Option (List Char) := fun l =>
        match l with
        | d1 :: d2 :: d3 :: d4 :: r =>
          if [d1, d2, d3, d4].all isDigitC ∧ atBoundary (some d4) r.head? then
            some [d1, d2, d3, d4]
          else none
        | _ => none
      match rest with
      | w :: rest2 =>
        if !isWordC w then
          match grab rest2 with
          | some code => some code
          | none => grab rest
        else grab rest
      | [] => none
    else none
  | _ => none

/-- Generic leftmost regex search returning the first position where the
positional matcher fires, threading the previous character for boundary
assertions. -/
def reSearchG (matchAt : Option Char → List Char → Option α) : Option Char → List Char → Option α
  | prev, [] => matchAt prev []
  | prev, c :: t =>
    match matchAt prev (c :: t) with
    | some m => some m
    | none => reSearchG matchAt (some c) t

/-- Embedding of _by_mcc: search the description for an MCC marker and
look the code up in the constant map; an unknown code yields none just
like an absent marker. -/
def byMcc (descLc : List Char) : Option (String × String) :=
  match reSearchG mccMatchAt none descLc with
  | some code => lookupMcc (String.mk code) MCC_MAP
  | none => none

/-- Matcher for _IBAN_RX at one position: a word boundary, the letters
tr, exactly twenty-four digits, and a trailing word boundary (the
description is already lowercased). -/
def ibanMatchAt (prev : Option Char) (cs : List Char) : Option Unit :=
  match cs with
  | 't' :: 'r' :: rest =>
    if atBoundary prev (some 't') then
      let ds := rest.take 24
      if ds.length = 24 ∧ ds.all isDigitC ∧ atBoundary (ds.getLast? ) ((rest.drop 24).head?) then
        some ()
      else none
    else none
  | _ => none

/-- True when the description contains an IBAN-shaped token. -/
def hasIban (descLc : List Char) : Bool :=
  (reSearchG ibanMatchAt none descLc).isSome

/-- Pick the first keyword hit among those of maximal keyword length:
the stable descending sort of _by_keywords followed by taking the head. -/
def bestKwHit : Option (String × String × String) → List (String × String × String) → Option (String × String)
  | cur, [] => cur.map (fun kv => (kv.2.1, kv.2.2))
  | cur, (k, m, s) :: t =>
    match cur with
    | none => bestKwHit (some (k, m, s)) t
    | some c => if c.1.length < k.length then bestKwHit (some (k, m, s)) t else bestKwHit cur t

/-- Embedding of _by_keywords: every keyword occurring in the
description is a candidate and the longest one wins, earlier table
entries winning ties. -/
def byKeywords (descLc : List Char) : Option (String × String) :=
  bestKwHit none (KEYWORD_MAP.filter (fun kv => isSub kv.1.data descLc))

/-- Embedding of _by_rules of src/categorizer.py: the ordered heuristic
tier over transfer cues, income cues, cash cues and fee cues. -/
def byRules (descLc : List Char) (txType : Option String) : Option (String × String) :=
  if hasIban descLc || isSub "eft".data descLc || isSub "havale".data descLc
      || isSub "fast".data descLc then
    some ("Debts & Liabilities", "Loan Payment")
  else if txType = some "income" || isSub "maas".data descLc || isSub "maaş".data descLc
      || isSub "salary".data descLc then
    some ("Salary & Wages", "Base Salary")
  else if isSub "nakit".data descLc || isSub "atm".data descLc then
    some ("Miscellaneous", "Unplanned Purchases")
  else if isSub "komisyon".data descLc || isSub "hesap i̇şletim".data descLc
      || isSub "hesap işletim".data descLc || isSub "fee".data descLc then
    some ("Taxes & Fees", "Service Charges")
  else if isSub "bsmv".data descLc || isSub "kkdf".data descLc || isSub "vergi".data descLc
      || isSub "tax".data descLc then
    some ("Taxes & Fees", "Income Tax")
  else none

/-- Embedding of _coerce_to_side: an income label under an income type is
kept, a wrong-side label is nudged to the neutral default of the inferred
side (membership is tested against the sub-category dictionaries, whose
keys are exactly the main lists). -/
def coerceToSide (main : String) (txType : String) : String :=
  if txType = "income" ∧ (lookupSubs main EXPENSE_SUB).isSome then "Other Income"
  else if txType = "expense" ∧ (lookupSubs main INCOME_SUB).isSome then "Miscellaneous"
  else main

/-- Embedding of _default_sub: the first sub-category of the main
category (every table entry is non-empty, so the headD default is never
taken for known categories). -/
def defaultSub (main : String) : String :=
  match lookupSubs main INCOME_SUB with
  | some subs => subs.headD ""
  | none =>
    match lookupSubs main EXPENSE_SUB with
    | some subs => subs.headD ""
    | none => "Unplanned Purchases"

/-- The four-tier cascade of categorize: user rules, then MCC, then
keywords, then heuristics; the first non-none tier wins. -/
def chosenCategory (descLc : List Char) (txType : Option String) (rules : List UserRule) :
    Option (String × String) :=
  match byUserRules descLc rules with
  | some h => some h
  | none =>
    match byMcc descLc with
    | some h => some h
    | none =>
      match byKeywords descLc with
      | some h => some h
      | none => byRules descLc txType

/-- Embedding of categorize of src/categorizer.py: normalize the
description, run the four-tier cascade, coerce the winner to the side of
the transaction type (a missing or falsy type behaving as expense), fill
an absent sub-category with the default, and fall back to the per-side
defaults when no tier fires. -/
def categorize (description : String) (txType : Option String) (rules : List UserRule) :
    String × String :=
  let d := pyNorm description.data
  let side := match txType with
    | none => "expense"
    | some t => if t = "" then "expense" else t
  match chosenCategory d txType rules with
  | some (m, s) => (coerceToSide m side, if s = "" then defaultSub m else s)
  | none =>
    if txType = some "income" then ("Other Income", "Lottery/Prize")
    else ("Miscellaneous", "Unplanned Purchases")

/-- DEFAULT_CURRENCY of src/pdf_extractor.py with the environment
variable unset. -/
def DEFAULT_CURRENCY : String := "TRY"

/-- EXPENSE_KEYWORDS of src/pdf_extractor.py, including the duplicated
otopark entry of the source. -/
def EXPENSE_KEYWORDS : List String :=
  ["market", "supermarket", "grocery", "bakkal", "food", "gıda",
   "restaurant", "restoran", "cafe", "kafe", "coffee", "kahve",
   "fuel", "gas", "benzin", "akaryakıt", "otopark", "otopark",
   "uber", "taksi", "taxi", "metro", "otobüs", "bus", "tram",
   "online shopping", "alışveriş", "shop", "mağaza",
   "fatura", "bill", "electric", "su", "doğalgaz", "internet",
   "kira", "rent", "mortgage", "otel", "hotel", "tatil", "travel",
   "pos", "atm", "ödeme", "payment", "withdrawal", "çekim"]

/-- INCOME_KEYWORDS of src/pdf_extractor.py. -/
def INCOME_KEYWORDS : List String :=
  ["salary", "maaş", "wage", "payroll", "deposit", "yatırma",
   "havale", "eft", "virman", "incoming transfer", "gelen havale",
   "refund", "iade", "interest", "faiz", "bonus", "prize"]

/-- TRANSFER_KEYWORDS of src/pdf_extractor.py. -/
def TRANSFER_KEYWORDS : List String :=
  ["transfer", "virman", "havale", "eft"]

/-- CATEGORY_KEYWORDS of src/pdf_extractor.py in dictionary insertion
order. -/
def CATEGORY_KEYWORDS : List (String × List String) :=
  [("Groceries", ["grocery", "supermarket", "migros", "carrefour", "bim", "şok", "market", "gıda", "a101"]),
   ("Dining", ["restaurant", "restoran", "cafe", "kafe", "coffee", "kahve", "starbucks", "burger", "pizza", "döner"]),
   ("Transportation", ["uber", "taksi", "taxi", "metro", "otobüs", "bus", "tram", "fuel", "benzin", "akaryakıt", "otopark", "parking"]),
   ("Housing", ["rent", "kira", "mortgage", "ev kredisi", "apartment", "site aidatı"]),
   ("Utilities", ["fatura", "bill", "electric", "elektrik", "water", "su", "doğalgaz", "natural gas", "internet", "telefon", "gsm"]),
   ("Entertainment", ["netflix", "spotify", "disney", "apple music", "sinema", "tiyatro", "concert", "konser", "bilet"]),
   ("Shopping", ["hepsiburada", "trendyol", "amazon", "n11", "boyner", "shopping", "alışveriş", "mağaza"]),
   ("Travel", ["otel", "hotel", "uçuş", "flight", "airline", "airbnb", "booking", "tatil", "seyahat"]),
   ("Health", ["eczane", "pharmacy", "hospital", "hastane", "doktor", "medical", "clinic", "dentist", "diş"]),
   ("Income", ["salary", "maaş", "payroll", "deposit", "faiz", "interest", "bonus", "incoming", "yatan"]),
   ("Transfer", ["transfer", "virman", "havale", "eft"])]

/-- Embedding of detect_transaction_type of src/pdf_extractor.py:
transfer, expense and income keyword scans over the lowered description,
then the numeric-sign fallback. -/
def detectTransactionType (description : List Char) (amountValue : ℚ) : String :=
  let desc := pyLowerL description
  if TRANSFER_KEYWORDS.any (fun k => isSub k.data desc) then "Transfer"
  else if EXPENSE_KEYWORDS.any (fun k => isSub k.data desc) then "Expense"
  else if INCOME_KEYWORDS.any (fun k => isSub k.data desc) then "Income"
  else if amountValue < 0 then "Expense"
  else if amountValue > 0 then "Income"
  else "Transfer"

/-- Embedding of categorize_transaction of src/pdf_extractor.py: the
first bucket of CATEGORY_KEYWORDS with a keyword in the lowered
description wins, then the type fallback, then Other. -/
def categorizeTransaction (description : List Char) (txType : Option String) : String :=
  let desc := pyLowerL description
  match CATEGORY_KEYWORDS.find? (fun ckv => ckv.2.any (fun k => isSub k.data desc)) with
  | some ckv => ckv.1
  | none =>
    if txType = some "Income" then "Income"
    else if txType = some "Transfer" then "Transfer"
    else "Other"

/-- Exactly n leading decimal digits, with the remaining suffix. -/
def takeDigitsExact (n : Nat) (cs : List Char) : Option (List Char × List Char) :=
  let ds := cs.take n
  if ds.length = n ∧ ds.all isDigitC then some (ds, cs.drop n) else none

/-- Matcher for the first DATE_PATTERN alternative of
src/pdf_extractor.py at one position: one or two digits, a separator
among dot, slash and dash, one or two digits, a separator, two to four
digits, followed by a word boundary; quantifiers are tried longest
first as the greedy regex does. -/
def dateAlt1At (cs : List Char) : Option (List Char) :=
  firstSome ([2, 1].map (fun l1 =>
    match takeDigitsExact l1 cs with
    | some (d1, r1) =>
      match r1 with
      | s1 :: r2 =>
        if s1 = '.' || s1 = '/' || s1 = '-' then
          firstSome ([2, 1].map (fun l2 =>
            match takeDigitsExact l2 r2 with
            | some (d2, r3) =>
              match r3 with
              | s2 :: r4 =>
                if s2 = '.' || s2 = '/' || s2 = '-' then
                  firstSome ([4, 3, 2].map (fun l3 =>
                    match takeDigitsExact l3 r4 with
                    | some (d3, r5) =>
                      if atBoundary d3.getLast? r5.head? then
                        some (d1 ++ s1 :: (d2 ++ s2 :: d3))
                      else none
                    | none => none))
                else none
              | [] => none
            | none => none))
        else none
      | [] => none
    | none => none))

/-- Matcher for the second DATE_PATTERN alternative at one position: one
or two digits, whitespace, at least three name letters, whitespace, two
to four digits, followed by a word boundary; the letter and whitespace
runs are maximal since their character classes are disjoint from their
successors. -/
def dateAlt2At (cs : List Char) : Option (List Char) :=
  firstSome ([2, 1].map (fun l1 =>
    match takeDigitsExact l1 cs with
    | some (d1, r1) =>
      let sp1 := r1.takeWhile isSpaceC
      if sp1 = [] then none else
      let r2 := r1.drop sp1.length
      let letters := r2.takeWhile isNameLetter
      if letters.length < 3 then none else
      let r3 := r2.drop letters.length
      let sp2 := r3.takeWhile isSpaceC
      if sp2 = [] then none else
      let r4 := r3.drop sp2.length
      let ds := r4.takeWhile isDigitC
      if 2 ≤ ds.length ∧ ds.length ≤ 4 ∧ atBoundary ds.getLast? ((r4.drop ds.length).head?) then
        some (d1 ++ sp1 ++ letters ++ sp2 ++ ds)
      else none
    | none => none))

/-- Positional matcher for DATE_PATTERN: a leading word boundary, then
the numeric alternative before the month-name alternative. -/
def dateMatchAt (prev : Option Char) (cs : List Char) : Option (List Char) :=
  if atBoundary prev cs.head? then
    match dateAlt1At cs with
    | some m => some m
    | none => dateAlt2At cs
  else none

/-- One thousands group of AMOUNT_PATTERN: a dot or comma and three
digits. -/
def grp3 (cs : List Char) : Option (List Char × List Char) :=
  match cs with
  | s :: d1 :: d2 :: d3 :: r =>
    if (s = '.' || s = ',') && isDigitC d1 && isDigitC d2 && isDigitC d3 then
      some ([s, d1, d2, d3], r)
    else none
  | _ => none

/-- The final decimal group of AMOUNT_PATTERN: a dot or comma and two
digits. -/
def grp2 (cs : List Char) : Option (List Char × List Char) :=
  match cs with
  | s :: d1 :: d2 :: r =>
    if (s = '.' || s = ',') && isDigitC d1 && isDigitC d2 then some ([s, d1, d2], r)
    else none
  | _ => none

/-- All prefixes of consecutive thousands groups, shortest first, each
with the consumed text and the remaining suffix. -/
def grp3Chain : Nat → List Char → List (List Char × List Char)
  | 0, cs => [([], cs)]
  | fuel + 1, cs =>
    ([], cs) :: (match grp3 cs with
      | some (g, r) => (grp3Chain fuel r).map (fun p => (g ++ p.1, p.2))
      | none => [])

/-- Matcher for the first AMOUNT_PATTERN alternative: an optional sign,
one to three digits, any number of thousands groups, and a final
two-digit decimal group; the star is given back greedily from the
longest chain. -/
def amtAlt1At (cs : List Char) : Option (List Char) :=
  let core : List Char → Option (List Char) := fun body =>
    firstSome ([3, 2, 1].map (fun l1 =>
      match takeDigitsExact l1 body with
      | some (d1, r1) =>
        firstSome ((grp3Chain (r1.length + 1) r1).reverse.map (fun chain =>
          match grp2 chain.2 with
          | some (g, _) => some (d1 ++ chain.1 ++ g)
          | none => none))
      | none => none))
  match cs with
  | c :: t =>
    if c = '-' || c = '+' then (core t).map (fun m => c :: m)
    else core cs
  | [] => none

/-- Matcher for the second AMOUNT_PATTERN alternative: a word boundary,
an optional sign, a maximal digit run, a two-digit decimal group, and a
trailing word boundary. -/
def amtAlt2At (prev : Option Char) (cs : List Char) : Option (List Char) :=
  if atBoundary prev cs.head? then
    let withSign : Option Char × List Char :=
      match cs with
      | c :: t => if c = '-' || c = '+' then (some c, t) else (none, cs)
      | [] => (none, cs)
    let ds := withSign.2.takeWhile isDigitC
    if ds = [] then none else
    match grp2 (withSign.2.drop ds.length) with
    | some (g, r) =>
      if atBoundary g.getLast? r.head? then
        some ((match withSign.1 with | some c => [c] | none => []) ++ ds ++ g)
      else none
    | none => none
  else none

/-- Positional matcher for AMOUNT_PATTERN: the unanchored alternative is
tried before the word-bounded one. -/
def amountMatchAt (prev : Option Char) (cs : List Char) : Option (List Char) :=
  match amtAlt1At cs with
  | some m => some m
  | none => amtAlt2At prev cs

/-- Generic non-overlapping findall: after a non-empty match the scan
resumes at its end with the last matched character as boundary context;
an empty match advances one position as the re module does. -/
def reFindallAux (matchAt : Option Char → List Char → Option (List Char)) :
    Nat → Option Char → List Char → List (List Char)
  | 0, _, _ => []
  | _ + 1, prev, [] =>
    match matchAt prev [] with
    | some m => [m]
    | none => []
  | fuel + 1, prev, c :: t =>
    match matchAt prev (c :: t) with
    | some m =>
      if m.length = 0 then m :: reFindallAux matchAt fuel (some c) t
      else m :: reFindallAux matchAt fuel m.getLast? ((c :: t).drop m.length)
    | none => reFindallAux matchAt fuel (some c) t

/-- Findall over a whole character list. -/
def reFindall (matchAt : Option Char → List Char → Option (List Char)) (cs : List Char) :
    List (List Char) :=
  reFindallAux matchAt (cs.length + 1) none cs

/-- The transaction record shape produced by src/pdf_extractor.py. -/
structure PdfTx where
  date : String
  description : String
  amount : String
  currency : String
  confidence : ℚ
  transaction_type : String
  category : String
deriving DecidableEq, Repr

/-- The candidate-row body shared verbatim by the table loop and
extract_from_text_lines of src/pdf_extractor.py, applied to an already
stripped non-empty candidate text: find a date and the last amount,
parse both, build the description by deleting the matched tokens, infer
the type and the category. -/
def extractCandidate (conf : ℚ) (curr : String) (txt : List Char) : Option PdfTx :=
  match reSearchG dateMatchAt none txt with
  | none => none
  | some rawDate =>
    match (reFindall amountMatchAt txt).getLast? with
    | none => none
    | some rawAmount =>
      match parseDate rawDate with
      | none => none
      | some isoDate =>
        match cleanAmountToFloat rawAmount with
        | none => none
        | some av =>
          let desc := pyStrip (replaceAll rawAmount [] (replaceAll rawDate [] txt))
          let ty := detectTransactionType desc av
          some { date := String.mk isoDate, description := String.mk desc,
                 amount := String.mk (format2 av), currency := curr,
                 confidence := conf, transaction_type := ty,
                 category := categorizeTransaction desc (some ty) }

/-- Embedding of extract_from_text_lines of src/pdf_extractor.py. -/
def extractFromTextLines (text : List Char) : List PdfTx :=
  (splitLinesPy text).filterMap (fun line0 =>
    let line := pyStrip line0
    if line = [] then none else extractCandidate (3 / 5) DEFAULT_CURRENCY line)

/-- One page as seen by extract_transactions of src/pdf_extractor.py:
the structured tables exposed by the document reader (cells may be
absent) and the native page text (which the reader may fail to provide). -/
structure PdfxPage where
  tables : List (List (List (Option String)))
  text : Option String
deriving Repr

/-- The table branch of extract_transactions for one page: every
non-empty row of every table is joined with spaces, stripped, and run
through the shared candidate body with confidence 0.8 and the request
currency. -/
def tablePageResults (curr : String) (p : PdfxPage) : List PdfTx :=
  p.tables.flatMap (fun table =>
    table.filterMap (fun row =>
      if row.isEmpty then none else
      let rt := pyStrip (List.intercalate [' '] (row.map (fun c => (c.getD "").data)))
      if rt = [] then none else extractCandidate (4 / 5) curr rt))

/-- The text fallback of extract_transactions for one page: the line
extractor over the native text with the currency overridden afterwards,
as the source mutates tx of currency in place. -/
def textPageResults (curr : String) (p : PdfxPage) : List PdfTx :=
  (extractFromTextLines (p.text.getD "").data).map (fun tx => { tx with currency := curr })

/-- Per-page cascade of extract_transactions: table rows if any row
parsed, otherwise the text lines. -/
def pagePdfxResults (curr : String) (p : PdfxPage) : List PdfTx :=
  let tr := tablePageResults curr p
  if tr = [] then textPageResults curr p else tr

/-- The request currency of extract_transactions of
src/pdf_extractor.py: the metadata entry, defaulting when absent or
falsy. -/
def currencyOf (metadata : Option String) : String :=
  match metadata with
  | some c => if c = "" then DEFAULT_CURRENCY else c
  | none => DEFAULT_CURRENCY

/-- Embedding of extract_transactions of src/pdf_extractor.py: each page
tries tables then text lines; only when every page produced nothing is
the external recognition capability consulted, its per-page text re-run
through the line extractor. -/
def extractTransactionsPdfx (pages : List PdfxPage) (metadata : Option String)
    (ocrText : Nat → String) : List PdfTx :=
  let currency := currencyOf metadata
  let results := pages.flatMap (pagePdfxResults currency)
  if results = [] then
    (List.range pages.length).flatMap (fun i =>
      (extractFromTextLines (ocrText i).data).map (fun tx => { tx with currency := currency }))
  else results

/-- Generic positional matcher for the numeric date layouts of
src/main.py: a word boundary, a first digit group, a separator from the
given class, a second digit group, a separator, a last digit group, and
a trailing word boundary, with group lengths tried in the given greedy
orders. -/
def numDateAt (lens1 : List Nat) (sepOk : Char → Bool) (lens2 lens3 : List Nat)
    (prev : Option Char) (cs : List Char) : Option (List Char) :=
  if atBoundary prev cs.head? then
    firstSome (lens1.map (fun l1 =>
      match takeDigitsExact l1 cs with
      | some (d1, r1) =>
        match r1 with
        | s1 :: r2 =>
          if sepOk s1 then
            firstSome (lens2.map (fun l2 =>
              match takeDigitsExact l2 r2 with
              | some (d2, r3) =>
                match r3 with
                | s2 :: r4 =>
                  if sepOk s2 then
                    firstSome (lens3.map (fun l3 =>
                      match takeDigitsExact l3 r4 with
                      | some (d3, r5) =>
                        if atBoundary d3.getLast? r5.head? then
                          some (d1 ++ s1 :: (d2 ++ s2 :: d3))
                        else none
                      | none => none))
                  else none
                | [] => none
              | none => none))
          else none
        | [] => none
      | none => none))
  else none

/-- The English three-letter month alternation of the month-name date
patterns of src/main.py, case sensitive as in the source. -/
def monthTok3 (cs : List Char) : Option (List Char × List Char) :=
  let names := ["Jan", "Feb", "Mar", "Apr", "May", "Jun", "Jul", "Aug", "Sep", "Oct", "Nov", "Dec"]
  match names.find? (fun nm => startsWithL nm.data cs) with
  | some nm => some (nm.data, cs.drop 3)
  | none => none

/-- The trailing four-digit year with word boundary shared by the
month-name date patterns of src/main.py, appended to the already matched
front part. -/
def yearEndTok (pre r : List Char) : Option (List Char) :=
  match takeDigitsExact 4 r with
  | some (yr, r6) =>
    if atBoundary yr.getLast? r6.head? then some (pre ++ yr) else none
  | none => none

/-- Positional matcher for the fifth date pattern of src/main.py: month
name, optional lowercase suffix, space, day, optional comma, space,
four-digit year, within word boundaries. -/
def dateMonthFirstAt (prev : Option Char) (cs : List Char) : Option (List Char) :=
  if atBoundary prev cs.head? then
    match monthTok3 cs with
    | some (nm, r1) =>
      let low := r1.takeWhile (fun c => 'a' ≤ c && c ≤ 'z')
      let r2 := r1.drop low.length
      match r2 with
      | ' ' :: r3 =>
        firstSome ([2, 1].map (fun l1 =>
          match takeDigitsExact l1 r3 with
          | some (dy, r4) =>
            firstSome [
              (match r4 with
               | ',' :: ' ' :: r5 => yearEndTok (nm ++ low ++ ' ' :: (dy ++ [',', ' '])) r5
               | _ => none),
              (match r4 with
               | ' ' :: r5 => yearEndTok (nm ++ low ++ ' ' :: (dy ++ [' '])) r5
               | _ => none)]
          | none => none))
      | _ => none
    | none => none
  else none

/-- Positional matcher for the sixth date pattern of src/main.py: day,
space, month name, optional lowercase suffix, space, four-digit year,
within word boundaries. -/
def dateDayFirstAt (prev : Option Char) (cs : List Char) : Option (List Char) :=
  if atBoundary prev cs.head? then
    firstSome ([2, 1].map (fun l1 =>
      match takeDigitsExact l1 cs with
      | some (dy, r1) =>
        match r1 with
        | ' ' :: r2 =>
          match monthTok3 r2 with
          | some (nm, r3) =>
            let low := r3.takeWhile (fun c => 'a' ≤ c && c ≤ 'z')
            let r4 := r3.drop low.length
            match r4 with
            | ' ' :: r5 => yearEndTok (dy ++ ' ' :: (nm ++ low ++ [' '])) r5
            | _ => none
          | none => none
        | _ => none
      | none => none))
  else none

/-- The date search of extract_transactions_from_text: the six patterns
are searched one after another over the whole line, the first pattern
with any hit winning. -/
def mainDateSearch (line : List Char) : Option (List Char) :=
  firstSome
    [reSearchG (numDateAt [2, 1] (fun c => c = '/') [2, 1] [4, 3, 2]) none line,
     reSearchG (numDateAt [2, 1] (fun c => c = '-') [2, 1] [4, 3, 2]) none line,
     reSearchG (numDateAt [4] (fun c => c = '/') [2, 1] [2, 1]) none line,
     reSearchG (numDateAt [4] (fun c => c = '-') [2, 1] [2, 1]) none line,
     reSearchG dateMonthFirstAt none line,
     reSearchG dateDayFirstAt none line]

/-- One comma-separated thousands group of the dollar amount patterns. -/
def grpComma3 (cs : List Char) : Option (List Char × List Char) :=
  match cs with
  | ',' :: d1 :: d2 :: d3 :: r =>
    if isDigitC d1 && isDigitC d2 && isDigitC d3 then some ([',', d1, d2, d3], r)
    else none
  | _ => none

/-- All prefixes of consecutive comma groups, shortest first. -/
def grpComma3Chain : Nat → List Char → List (List Char × List Char)
  | 0, cs => [([], cs)]
  | fuel + 1, cs =>
    ([], cs) :: (match grpComma3 cs with
      | some (g, r) => (grpComma3Chain fuel r).map (fun p => (g ++ p.1, p.2))
      | none => [])

/-- The dot decimal group of the dollar amount patterns: a dot and two
digits. -/
def dotGrp2 (cs : List Char) : Option (List Char × List Char) :=
  match cs with
  | '.' :: d1 :: d2 :: r =>
    if isDigitC d1 && isDigitC d2 then some (['.', d1, d2], r)
    else none
  | _ => none

/-- The grouped dollar amount core: one to three digits, comma groups,
and a two-digit dot decimal, with greedy backtracking; the boundary test
on the suffix lets a trailing word-boundary requirement backtrack into
the choice of groups. -/
def usCoreAt (needEndBoundary : Bool) (cs : List Char) : Option (List Char × List Char) :=
  firstSome ([3, 2, 1].map (fun l1 =>
    match takeDigitsExact l1 cs with
    | some (d1, r1) =>
      firstSome ((grpComma3Chain (r1.length + 1) r1).reverse.map (fun chain =>
        match dotGrp2 chain.2 with
        | some (g, r) =>
          if needEndBoundary → atBoundary g.getLast? r.head? then
            some (d1 ++ chain.1 ++ g, r)
          else none
        | none => none))
    | none => none))

/-- The plain dollar amount core: a maximal digit run and a two-digit
dot decimal. -/
def plainCoreAt (needEndBoundary : Bool) (cs : List Char) : Option (List Char × List Char) :=
  let ds := cs.takeWhile isDigitC
  if ds = [] then none else
  match dotGrp2 (cs.drop ds.length) with
  | some (g, r) =>
    if needEndBoundary → atBoundary g.getLast? r.head? then some (ds ++ g, r) else none
  | none => none

/-- Positional matcher for the first amount pattern of src/main.py: a
dollar sign, optional whitespace, and the grouped core. -/
def amtDollarGroupedAt (_prev : Option Char) (cs : List Char) : Option (List Char) :=
  match cs with
  | '$' :: t =>
    let sp := t.takeWhile isSpaceC
    (usCoreAt false (t.drop sp.length)).map (fun p => '$' :: (sp ++ p.1))
  | _ => none

/-- Positional matcher for the second amount pattern: the grouped core,
optional whitespace, and a dollar sign. -/
def amtGroupedDollarAt (_prev : Option Char) (cs : List Char) : Option (List Char) :=
  match usCoreAt false cs with
  | some (m, r) =>
    let sp := r.takeWhile isSpaceC
    match r.drop sp.length with
    | '$' :: _ => some (m ++ sp ++ ['$'])
    | _ => none
  | none => none

/-- Positional matcher for the third amount pattern: a dollar sign,
optional whitespace, and the plain core. -/
def amtDollarPlainAt (_prev : Option Char) (cs : List Char) : Option (List Char) :=
  match cs with
  | '$' :: t =>
    let sp := t.takeWhile isSpaceC
    (plainCoreAt false (t.drop sp.length)).map (fun p => '$' :: (sp ++ p.1))
  | _ => none

/-- Positional matcher for the fourth amount pattern: the plain core,
optional whitespace, and a dollar sign. -/
def amtPlainDollarAt (_prev : Option Char) (cs : List Char) : Option (List Char) :=
  match plainCoreAt false cs with
  | some (m, r) =>
    let sp := r.takeWhile isSpaceC
    match r.drop sp.length with
    | '$' :: _ => some (m ++ sp ++ ['$'])
    | _ => none
  | none => none

/-- Positional matcher for the fifth amount pattern: the grouped core
within word boundaries. -/
def amtGroupedBareAt (prev : Option Char) (cs : List Char) : Option (List Char) :=
  if atBoundary prev cs.head? then (usCoreAt true cs).map (fun p => p.1) else none

/-- Positional matcher for the sixth amount pattern: the plain core
within word boundaries. -/
def amtPlainBareAt (prev : Option Char) (cs : List Char) : Option (List Char) :=
  if atBoundary prev cs.head? then (plainCoreAt true cs).map (fun p => p.1) else none

/-- The amount search shared by the text tier and the OCR tier of
src/main.py: the six patterns are searched one after another. -/
def mainAmountSearch (line : List Char) : Option (List Char) :=
  firstSome
    [reSearchG amtDollarGroupedAt none line,
     reSearchG amtGroupedDollarAt none line,
     reSearchG amtDollarPlainAt none line,
     reSearchG amtPlainDollarAt none line,
     reSearchG amtGroupedBareAt none line,
     reSearchG amtPlainBareAt none line]

/-- The transaction record shape produced by src/main.py. -/
structure MainTx where
  date : String
  description : String
  amount : String
  category : String
  confidence : ℚ
deriving DecidableEq, Repr

/-- Split a character list on a separator character, Python str.split
with a one-character separator. -/
def splitOnC (sep : Char) : List Char → List (List Char)
  | [] => [[]]
  | c :: t =>
    if c = sep then [] :: splitOnC sep t
    else
      match splitOnC sep t with
      | [] => [[c]]
      | l :: ls => (c :: l) :: ls

/-- Anchored test for the shape one or two digits, separator, one or
two digits, separator, then at least n further digits: the re.match
calls guarding the repeated date standardization blocks. -/
def matchNumPair (sep : Char) (n : Nat) (cs : List Char) : Bool :=
  [2, 1].any (fun l1 =>
    match takeDigitsExact l1 cs with
    | some (_, s1 :: r2) =>
      s1 = sep &&
        [2, 1].any (fun l2 =>
          match takeDigitsExact l2 r2 with
          | some (_, s2 :: r4) => s2 = sep && (takeDigitsExact n r4).isSome
          | _ => false)
    | _ => false)

/-- Shorthand for the anchored slash date test with a four-digit year. -/
def matchSlash4 (cs : List Char) : Bool :=
  matchNumPair '/' 4 cs

/-- Shorthand for the anchored slash date test with a two-digit year. -/
def matchSlash2 (cs : List Char) : Bool :=
  matchNumPair '/' 2 cs

/-- The date standardization block repeated in the text tier and both
pattern-tier loops of src/main.py: a slash date with a four-digit year
becomes ISO under the month-first reading, a slash date with a shorter
year gets the century prefix by the below-50 pivot, anything else (in
particular a date already in ISO form, handled by an explicit pass in
the source) is kept unchanged; a failed three-way split keeps the
original as the surrounding try block does. -/
def stdSlashDate (ds : List Char) : List Char :=
  if matchSlash4 ds then
    match splitOnC '/' ds with
    | [mo, dy, yr] => yr ++ '-' :: (padZero 2 mo ++ '-' :: padZero 2 dy)
    | _ => ds
  else if matchSlash2 ds then
    match splitOnC '/' ds with
    | [mo, dy, yr] =>
      ((if digitsVal yr < 50 then "20".data else "19".data) ++ yr) ++
        '-' :: (padZero 2 mo ++ '-' :: padZero 2 dy)
    | _ => ds
  else ds

/-- The credit-or-debit decision shared by the text tier and the OCR
tier of src/main.py, applied to the stripped line and the already
cleaned amount string; it returns the flag and the possibly further
cleaned amount. -/
def isCreditCalc (line amountStr : List Char) : Bool × List Char :=
  let ll := pyLowerL line
  if isSub "credit".data ll || isSub "deposit".data ll || line.contains '+' then
    (true, amountStr)
  else if isSub "debit".data ll || isSub "withdrawal".data ll || line.contains '-' then
    (false, amountStr)
  else if amountStr.contains '(' && amountStr.contains ')' then
    (false, amountStr.filter (fun c => c ≠ '(' && c ≠ ')'))
  else
    (!(amountStr.take 1 = ['-']), dropChar '-' amountStr)

/-- One line of extract_transactions_from_text of src/main.py, with the
surrounding lines available for the next-line amount search and the
description fallbacks. -/
def mainTextLine (lines : List (List Char)) (i : Nat) (line0 : List Char) : Option MainTx :=
  let line := pyStrip line0
  if line = [] then none else
  let ll := pyLowerL line
  if isSub "date".data ll || isSub "description".data ll || isSub "transaction".data ll
      || isSub "amount".data ll then none else
  match mainDateSearch line with
  | none => none
  | some dstr =>
    let amt? := match mainAmountSearch line with
      | some a => some a
      | none =>
        if i + 1 < lines.length then mainAmountSearch (lines.getD (i + 1) []) else none
    match amt? with
    | none => none
    | some astr =>
      let desc := pyStrip (replaceAll astr [] (replaceAll dstr [] line))
      let desc := if desc = [] ∧ 0 < i then pyStrip (lines.getD (i - 1) []) else desc
      let desc := if desc = [] ∧ i + 1 < lines.length then pyStrip (lines.getD (i + 1) []) else desc
      let astr2 := pyStrip (dropChar ',' (dropChar '$' astr))
      let cr := isCreditCalc line astr2
      let famount := if cr.1 then cr.2 else '-' :: cr.2
      some { date := String.mk (stdSlashDate dstr),
             description := if desc = [] then "Unknown" else String.mk (desc.take 100),
             amount := String.mk famount,
             category := "Other",
             confidence := 17 / 20 }

/-- Embedding of extract_transactions_from_text of src/main.py over the
native text of each page. -/
def extractTextMain (doc : List String) : List MainTx :=
  doc.flatMap (fun page =>
    let lines := splitOnNl page.data
    (List.range lines.length).filterMap (fun i => mainTextLine lines i (lines.getD i [])))

/-- Greedy splits of a leading run of separator characters, longest
first, each at least one character. -/
def greedyRunSplits (ok : Char → Bool) (cs : List Char) : List (List Char × List Char) :=
  let run := cs.takeWhile ok
  (List.range run.length).reverse.map (fun j => (run.take (j + 1), cs.drop (j + 1)))

/-- Lazy splits of a leading run of description characters, shortest
first, the empty description first. -/
def lazyDescSplits (ok : Char → Bool) : List Char → List (List Char × List Char)
  | [] => [([], [])]
  | c :: t =>
    ([], c :: t) ::
      (if ok c then (lazyDescSplits ok t).map (fun p => (c :: p.1, p.2)) else [])

/-- The amount alternation of the bank pattern of src/main.py: an
optional minus, an optional dollar sign, optional whitespace and the
grouped core, or an optional dollar sign, optional whitespace and the
plain core. -/
def bankAmtAt (allowMinus : Bool) (cs : List Char) : Option (List Char × List Char) :=
  let alt1 :=
    let m : Option Char × List Char :=
      match cs with
      | '-' :: t => if allowMinus then (some '-', t) else (none, cs)
      | _ => (none, cs)
    let d : Option Char × List Char :=
      match m.2 with
      | '$' :: t => (some '$', t)
      | _ => (none, m.2)
    let sp := d.2.takeWhile isSpaceC
    (usCoreAt false (d.2.drop sp.length)).map (fun p =>
      ((match m.1 with | some c => [c] | none => []) ++
       (match d.1 with | some c => [c] | none => []) ++ sp ++ p.1, p.2))
  match alt1 with
  | some r => some r
  | none =>
    let d : Option Char × List Char :=
      match cs with
      | '$' :: t => (some '$', t)
      | _ => (none, cs)
    let sp := d.2.takeWhile isSpaceC
    (plainCoreAt false (d.2.drop sp.length)).map (fun p =>
      ((match d.1 with | some c => [c] | none => []) ++ sp ++ p.1, p.2))

/-- Positional matcher for the bank and credit-card patterns of
src/main.py: an unanchored numeric date, a separator run of whitespace
or commas, a lazy description (excluding dollar signs for the bank
shape, only newlines for the credit-card shape), another separator run,
and the amount alternation; it yields the three captured groups and the
total consumed length. -/
def stmtMatchAt (descOk : Char → Bool) (allowMinus : Bool) (cs : List Char) :
    Option ((List Char × List Char × List Char) × Nat) :=
  firstSome ([2, 1].map (fun l1 =>
    match takeDigitsExact l1 cs with
    | some (d1, r1) =>
      match r1 with
      | s1 :: r2 =>
        if s1 = '/' || s1 = '-' then
          firstSome ([2, 1].map (fun l2 =>
            match takeDigitsExact l2 r2 with
            | some (d2, r3) =>
              match r3 with
              | s2 :: r4 =>
                if s2 = '/' || s2 = '-' then
                  firstSome ([4, 3, 2].map (fun l3 =>
                    match takeDigitsExact l3 r4 with
                    | some (d3, r5) =>
                      let date := d1 ++ s1 :: (d2 ++ s2 :: d3)
                      firstSome ((greedyRunSplits (fun c => isSpaceC c || c = ',') r5).map
                        (fun sep1 =>
                          firstSome ((lazyDescSplits descOk sep1.2).map (fun dsp =>
                            firstSome ((greedyRunSplits (fun c => isSpaceC c || c = ',') dsp.2).map
                              (fun sep2 =>
                                match bankAmtAt allowMinus sep2.2 with
                                | some (amt, rest) =>
                                  some ((date, dsp.1, amt),
                                    cs.length - rest.length)
                                | none => none))))))
                    | none => none))
                else none
              | [] => none
            | none => none))
        else none
      | [] => none
    | none => none))

/-- Generic non-overlapping finditer over positional matchers that
report a consumed length. -/
def reFinditerAux (matchAt : List Char → Option (α × Nat)) : Nat → List Char → List α
  | 0, _ => []
  | _ + 1, [] =>
    match matchAt [] with
    | some (a, _) => [a]
    | none => []
  | fuel + 1, c :: t =>
    match matchAt (c :: t) with
    | some (a, len) => a :: reFinditerAux matchAt fuel ((c :: t).drop (max len 1))
    | none => reFinditerAux matchAt fuel t

/-- Finditer over a whole character list. -/
def reFinditer (matchAt : List Char → Option (α × Nat)) (cs : List Char) : List α :=
  reFinditerAux matchAt (cs.length + 1) cs

/-- The cleanup applied to every pattern-tier amount group: dollar signs
and commas removed, then stripped. -/
def cleanPatternAmount (amt : List Char) : List Char :=
  pyStrip (dropChar ',' (dropChar '$' amt))

/-- Embedding of extract_transactions_with_patterns of src/main.py: per
page, every bank-pattern match is appended, then every credit-card
pattern match is appended unless a record with the same raw date and
cleaned amount is already present in the accumulated list. -/
def extractPatternsMain (doc : List String) : List MainTx :=
  doc.foldl (fun acc page =>
    let text := page.data
    let bankTxs := (reFinditer (stmtMatchAt (fun c => c ≠ '$' && c ≠ '\n') true) text).map
      (fun g =>
        { date := String.mk (stdSlashDate g.1),
          description := String.mk (pyStrip g.2.1),
          amount := String.mk (cleanPatternAmount g.2.2),
          category := "Other",
          confidence := 3 / 4 })
    let acc := acc ++ bankTxs
    (reFinditer (stmtMatchAt (fun c => c ≠ '\n') false) text).foldl (fun acc g =>
      let rawDate := String.mk g.1
      let amount := String.mk (cleanPatternAmount g.2.2)
      if acc.any (fun e => e.date = rawDate ∧ e.amount = amount) then acc
      else acc ++
        [{ date := String.mk (stdSlashDate g.1),
           description := String.mk (pyStrip g.2.1),
           amount := amount,
           category := "Other",
           confidence := 7 / 10 }]) acc) []

/-- The OCR-tier date search of src/main.py: two numeric patterns whose
separators may mix slash, dot and dash. -/
def ocrDateSearch (line : List Char) : Option (List Char) :=
  let sepOk : Char → Bool := fun c => c = '/' || c = '.' || c = '-'
  firstSome
    [reSearchG (numDateAt [2, 1] sepOk [2, 1] [4, 3, 2]) none line,
     reSearchG (numDateAt [4] sepOk [2, 1] [2, 1]) none line]

/-- The OCR-tier date standardization of src/main.py: only slash and
dash dates with four-digit years are rewritten, under the month-first
reading; everything else keeps its matched text. -/
def stdOcrDate (ds : List Char) : List Char :=
  if matchSlash4 ds then
    match splitOnC '/' ds with
    | [mo, dy, yr] => yr ++ '-' :: (padZero 2 mo ++ '-' :: padZero 2 dy)
    | _ => ds
  else if matchNumPair '-' 4 ds then
    match splitOnC '-' ds with
    | [mo, dy, yr] => yr ++ '-' :: (padZero 2 mo ++ '-' :: padZero 2 dy)
    | _ => ds
  else ds

/-- One line of the OCR branch extract_transactions_with_ocr of
src/main.py: short lines are skipped, the amount may come from the next
line, empty descriptions fall back to the previous line, then to the
line after next, then to a placeholder. -/
def ocrLine (lines : List (List Char)) (j : Nat) (line0 : List Char) : Option MainTx :=
  let line := pyStrip line0
  if line = [] ∨ line.length < 5 then none else
  match ocrDateSearch line with
  | none => none
  | some dstr =>
    let amt? := match mainAmountSearch line with
      | some a => some a
      | none =>
        if j + 1 < lines.length then mainAmountSearch (lines.getD (j + 1) []) else none
    match amt? with
    | none => none
    | some astr =>
      let desc := pyStrip (replaceAll astr [] (replaceAll dstr [] line))
      let desc := if desc = [] ∧ 0 < j then pyStrip (lines.getD (j - 1) []) else desc
      let desc := if desc = [] ∧ j + 2 < lines.length then pyStrip (lines.getD (j + 2) []) else desc
      let desc := if desc = [] then "Transaction".data else desc
      let astr2 := pyStrip (dropChar ',' (dropChar '$' astr))
      let cr := isCreditCalc line astr2
      let famount := if cr.1 then cr.2 else '-' :: cr.2
      some { date := String.mk (stdOcrDate dstr),
             description := String.mk (desc.take 100),
             amount := String.mk famount,
             category := "Other",
             confidence := 3 / 5 }

/-- Embedding of extract_transactions_with_ocr of src/main.py, with the
externally recognized per-page text supplied as a function of the page
index (the rendering and recognition engines are collaborators outside
the core). -/
def ocrTxsMain (doc : List String) (ocrText : Nat → String) : List MainTx :=
  (List.range doc.length).flatMap (fun i =>
    let lines := splitOnNl (ocrText i).data
    (List.range lines.length).filterMap (fun j => ocrLine lines j (lines.getD j [])))

/-- Embedding of is_scanned_document of src/main.py: the average count
of stripped native-text characters over the first up-to-three pages is
below 500 (an empty document counts as zero and is scanned). -/
def isScannedDoc (doc : List String) : Bool :=
  let ptc := min 3 doc.length
  let chars := (((doc.take ptc).map (fun p => (pyStrip p.data).length)).sum : ℚ)
  let avg : ℚ := if 0 < ptc then chars / (ptc : ℚ) else 0
  avg < 500

/-- The comparison key of deduplicate_transactions of src/main.py: date,
amount, and the lowered first ten description characters, joined with
underscores. -/
def dedupKey (t : MainTx) : List Char :=
  t.date.data ++ '_' :: (t.amount.data ++ '_' :: pyLowerL (t.description.data.take 10))

/-- The loop body of deduplicate_transactions of src/main.py, carried
state being the kept records and the seen keys: a record with a seen key
is dropped outright; otherwise the kept records with the same key (none
can exist, as proved below) would be replaced when beaten on confidence,
and failing that the record is appended. -/
def dedupAux : List MainTx → List (List Char) → List MainTx → List MainTx
  | uniq, _, [] => uniq
  | uniq, seen, t :: rest =>
    let key := dedupKey t
    if seen.any (fun k => k = key) then dedupAux uniq seen rest
    else if uniq.any (fun u => dedupKey u = key) then
      dedupAux (uniq.map (fun u => if dedupKey u = key ∧ u.confidence < t.confidence then t else u))
        (key :: seen) rest
    else dedupAux (uniq ++ [t]) (key :: seen) rest

/-- Embedding of deduplicate_transactions of src/main.py. -/
def deduplicateTransactions (ts : List MainTx) : List MainTx :=
  if ts = [] then [] else dedupAux [] [] ts

/-- The ExtractionOptions model of src/main.py; only enable_ocr steers
the extraction cascade. -/
structure MainOptions where
  enable_ocr : Bool
  enable_table_detection : Bool
  page_limit : Nat
  confidence_threshold : ℚ
  use_advanced_extraction : Bool

/-- The pydantic defaults of ExtractionOptions. -/
def defaultOptions : MainOptions :=
  { enable_ocr := true, enable_table_detection := true, page_limit := 0,
    confidence_threshold := 1 / 2, use_advanced_extraction := true }

/-- The result dictionary of extract_transactions_from_pdf of
src/main.py (the error path of the surrounding try block is outside the
model, which is total). -/
structure MainResult where
  transactions : List MainTx
  extraction_method : String
  document_type : String
  quality : String
  page_count : Nat
deriving Repr

/-- The document-type sniffing of extract_transactions_from_pdf over the
lowered first-page text. -/
def docTypeOf (firstPage : List Char) : String :=
  let fp := pyLowerL firstPage
  if isSub "statement".data fp || isSub "account".data fp || isSub "bank".data fp
      || isSub "transaction".data fp then "bank_statement"
  else if isSub "invoice".data fp || isSub "receipt".data fp || isSub "bill".data fp then
    "invoice"
  else "financial_document"

/-- Embedding of extract_transactions_from_pdf of src/main.py over a
document given as its per-page native text, with the OCR capability as a
parameter: the text tier and the pattern tier always run and are
concatenated; OCR runs when enabled and the document looks scanned or
fewer than three rows were found, switching the method label; the
concatenation is deduplicated and the quality graded by row count. -/
def extractTransactionsFromPdf (doc : List String) (opts : MainOptions)
    (ocrText : Nat → String) : MainResult :=
  let docType := docTypeOf (doc.headD "").data
  let allTx := extractTextMain doc ++ extractPatternsMain doc
  let withOcr := opts.enable_ocr && (isScannedDoc doc || allTx.length < 3)
  let allTx2 := if withOcr then allTx ++ ocrTxsMain doc ocrText else allTx
  let txs := deduplicateTransactions allTx2
  { transactions := txs,
    extraction_method := if withOcr then "combined-with-ocr" else "combined",
    document_type := docType,
    quality := if 10 < txs.length then "high" else if 3 < txs.length then "medium" else "low",
    page_count := doc.length }

/-- Specification-side reading of deduplication: keep the first record
of every key, in input order, regardless of confidence. -/
def keepFirstByKey (seen : List (List Char)) : List MainTx → List MainTx
  | [] => []
  | t :: rest =>
    if seen.any (fun k => k = dedupKey t) then keepFirstByKey seen rest
    else t :: keepFirstByKey (dedupKey t :: seen) rest

/-- Specification-side reading of the amount rule: drop the thousands
separator, read the decimal separator as a decimal point, and parse. -/
def interpretWith (decSep thouSep : Char) (s : List Char) : Option ℚ :=
  pyFloatOpt (sepToDot decSep (dropChar thouSep s))

/-!
Helper lemmas.
-/

/-- A first-some result is one of the listed options. -/
theorem firstSome_mem {α : Type} {l : List (Option α)} {a : α}
    (h : firstSome l = some a) : some a ∈ l := by
  induction l with
  | nil => simp [firstSome] at h
  | cons x t ih =>
    cases x with
    | some b =>
      simp only [firstSome] at h
      exact h ▸ List.mem_cons_self _ _
    | none =>
      simp only [firstSome] at h
      exact List.mem_cons_of_mem _ (ih h)

/-- A search hit comes from the positional matcher at some position. -/
theorem reSearchG_mem {α : Type} {matchAt : Option Char → List Char → Option α}
    {a : α} : ∀ {prev : Option Char} {cs : List Char},
    reSearchG matchAt prev cs = some a →
    ∃ p t, matchAt p t = some a := by
  intro prev cs
  induction cs generalizing prev with
  | nil => exact fun h => ⟨prev, [], h⟩
  | cons c t ih =>
    intro h
    simp only [reSearchG] at h
    cases hm : matchAt prev (c :: t) with
    | some m =>
      rw [hm] at h
      simp only [Option.some.injEq] at h
      exact ⟨prev, c :: t, h ▸ hm⟩
    | none => rw [hm] at h; exact ih h

/-- Dropping while a predicate fails everywhere is the identity. -/
theorem dropWhile_eq_self_of_all {p : Char → Bool} {l : List Char}
    (h : ∀ c ∈ l, p c = false) : l.dropWhile p = l := by
  cases l with
  | nil => rfl
  | cons c t => simp [List.dropWhile, h c (List.mem_cons_self _ _)]

/-- Stripping a list with no whitespace characters is the identity. -/
theorem pyStrip_eq_self_of_all {l : List Char}
    (h : ∀ c ∈ l, isSpaceC c = false) : pyStrip l = l := by
  unfold pyStrip
  rw [dropWhile_eq_self_of_all h, dropWhile_eq_self_of_all, List.reverse_reverse]
  intro c hc
  exact h c (List.mem_reverse.mp hc)

/-- Filtering with an everywhere-true predicate is the identity. -/
theorem filter_eq_self_of_all {p : Char → Bool} {l : List Char}
    (h : ∀ c ∈ l, p c = true) : l.filter p = l :=
  List.filter_eq_self.mpr h

/-- Under the loop invariant that every kept key has been seen, the
replacement branch of the deduplication loop is unreachable, and the
loop appends exactly the first record of each unseen key. -/
theorem dedupAux_eq_keepFirst :
    ∀ (ts uniq : List MainTx) (seen : List (List Char)),
    (∀ u ∈ uniq, dedupKey u ∈ seen) →
    dedupAux uniq seen ts = uniq ++ keepFirstByKey seen ts := by
  intro ts
  induction ts with
  | nil => intro uniq seen _; simp [dedupAux, keepFirstByKey]
  | cons t rest ih =>
    intro uniq seen hinv
    simp only [dedupAux, keepFirstByKey]
    cases hseen : seen.any (fun k => k = dedupKey t) with
    | true => simp only [hseen, if_true]; exact ih uniq seen hinv
    | false =>
      have hany : uniq.any (fun u => dedupKey u = dedupKey t) = false := by
        by_contra hne
        have := List.any_eq_true.mp (Bool.of_not_eq_false hne)
        obtain ⟨u, hu, hKey⟩ := this
        have hmem : dedupKey u ∈ seen := hinv u hu
        have : seen.any (fun k => k = dedupKey t) = true :=
          List.any_eq_true.mpr ⟨dedupKey u, hmem, by
            simpa using of_decide_eq_true hKey⟩
        exact absurd this (by simp [hseen])
      simp only [hseen, hany, if_false, Bool.false_eq_true]
      rw [ih (uniq ++ [t]) (dedupKey t :: seen) ?inv]
      · simp
      case inv =>
        intro u hu
        rcases List.mem_append.mp hu with h1 | h1
        · exact List.mem_cons_of_mem _ (hinv u h1)
        · simp only [List.mem_singleton] at h1
          exact h1 ▸ List.mem_cons_self _ _

/-- Keeping first occurrences yields a subsequence of the input. -/
theorem keepFirst_sublist : ∀ (seen : List (List Char)) (ts : List MainTx),
    (keepFirstByKey seen ts).Sublist ts := by
  intro seen ts
  induction ts generalizing seen with
  | nil => simp [keepFirstByKey]
  | cons t rest ih =>
    simp only [keepFirstByKey]
    split
    · exact (ih seen).trans (List.sublist_cons_self t rest)
    · exact (ih (dedupKey t :: seen)).cons₂ t

/-- Claim C10: deduplicate_transactions returns a subsequence of its
input in input order, keeping exactly the first record of every
duplicate key regardless of confidence; the branch replacing a kept
record with a later higher-confidence duplicate never runs, as the loop
is extensionally the plain keep-first filter. -/
theorem claim_C10 (ts : List MainTx) :
    deduplicateTransactions ts = keepFirstByKey [] ts ∧
    (deduplicateTransactions ts).Sublist ts := by
  have heq : deduplicateTransactions ts = keepFirstByKey [] ts := by
    cases ts with
    | nil => rfl
    | cons t rest =>
      unfold deduplicateTransactions
      rw [if_neg (by simp)]
      simpa using dedupAux_eq_keepFirst (t :: rest) [] [] (by simp)
  exact ⟨heq, heq ▸ keepFirst_sublist [] ts⟩

/-- Claim C4: on two records agreeing on date, amount and the lowered
ten-character description prefix, where the second has the higher
confidence, deduplication keeps the first, lower-confidence record,
contradicting the keep-highest-confidence reading that the loop's own
comment states. -/
theorem claim_C4_bug :
    deduplicateTransactions
      [{ date := "2024-01-01", description := "Coffee", amount := "5.00",
         category := "Other", confidence := 3 / 5 },
       { date := "2024-01-01", description := "COFFEE", amount := "5.00",
         category := "Other", confidence := 9 / 10 }] =
      [{ date := "2024-01-01", description := "Coffee", amount := "5.00",
         category := "Other", confidence := 3 / 5 }] ∧
    dedupKey { date := "2024-01-01", description := "Coffee", amount := "5.00",
               category := "Other", confidence := 3 / 5 } =
      dedupKey { date := "2024-01-01", description := "COFFEE", amount := "5.00",
                 category := "Other", confidence := 9 / 10 } ∧
    (3 / 5 : ℚ) < 9 / 10 := by
  refine ⟨by decide, by decide, by norm_num⟩

/-- An amount character (digit, dot or comma) is not whitespace. -/
theorem amount_not_space {c : Char} (h : isDigitC c = true ∨ c = '.' ∨ c = ',') :
    isSpaceC c = false := by
  by_contra hsp
  have hs : isSpaceC c = true := Bool.of_not_eq_false hsp
  simp only [isSpaceC, Bool.or_eq_true, decide_eq_true_eq] at hs
  rcases hs with ((((((rfl | rfl) | rfl) | rfl) | rfl) | rfl) | rfl) <;>
    rcases h with h | h | h <;> simp_all [isDigitC]

/-- An amount character survives the character filter of
clean_amount_to_float. -/
theorem amount_keep {c : Char} (h : isDigitC c = true ∨ c = '.' ∨ c = ',') :
    amountKeep c = true := by
  rcases h with h | rfl | rfl
  · simp [amountKeep, h]
  · decide
  · decide

/-- An amount character is not one of the sign or parenthesis markers. -/
theorem amount_not_mark {c : Char} (h : isDigitC c = true ∨ c = '.' ∨ c = ',') :
    c ≠ '(' ∧ c ≠ ')' ∧ c ≠ '-' ∧ c ≠ '−' := by
  rcases h with h | rfl | rfl
  · refine ⟨?_, ?_, ?_, ?_⟩ <;> rintro rfl <;> simp [isDigitC] at h
  · exact ⟨by decide, by decide, by decide, by decide⟩
  · exact ⟨by decide, by decide, by decide, by decide⟩

/-- A true rfind comparison needs a position on the left. -/
theorem rfindGt_some {a b : Option Nat} (h : rfindGt a b = true) : ∃ i, a = some i := by
  cases a with
  | some i => exact ⟨i, rfl⟩
  | none => simp [rfindGt] at h

/-- The rfind comparison is asymmetric. -/
theorem rfindGt_asymm {a b : Option Nat} (h : rfindGt a b = true) : rfindGt b a = false := by
  cases a <;> cases b <;> simp_all [rfindGt] <;> omega

/-- A character list without the searched character rfinds nothing, and
hence rfind of the empty list is none. -/
theorem rfindC_nil (c : Char) : rfindC c [] = none := rfl

/-- Dropping a character absent from the list is the identity. -/
theorem dropChar_eq_self {x : Char} {l : List Char} (h : ∀ c ∈ l, c ≠ x) :
    dropChar x l = l :=
  List.filter_eq_self.mpr (fun c hc => by simpa using h c hc)

/-- Membership transfers out of a separator replacement. -/
theorem mem_sepToDot {d c : Char} {l : List Char} (h : c ∈ sepToDot d l) :
    c = '.' ∨ c ∈ l := by
  simp only [sepToDot, List.mem_map] at h
  obtain ⟨a, ha, rfl⟩ := h
  split
  · exact Or.inl rfl
  · exact Or.inr ha

/-- Replacing dots by dots changes nothing. -/
theorem sepToDot_dot (l : List Char) : sepToDot '.' l = l := by
  unfold sepToDot
  have h : ∀ a ∈ l, (if a = '.' then '.' else a) = a := by
    intro a _
    split
    · simp_all
    · rfl
  rw [List.map_congr_left h]
  simp

/-- Membership transfers out of a character drop. -/
theorem mem_dropChar {x c : Char} {l : List Char} (h : c ∈ dropChar x l) : c ∈ l :=
  (List.mem_filter.mp h).1

/-- Claim C7: the European and US sample amounts normalize to the same
decimal 1234.56, and in general over strings of digits, dots and commas,
when the last separator is a comma the comma is read as the decimal
separator with dots as thousands separators, and when the last separator
is a dot the roles are inverted. -/
theorem claim_C7 :
    cleanAmountToFloat "1.234,56".data = some (mkRat 123456 100) ∧
    cleanAmountToFloat "1,234.56".data = some (mkRat 123456 100) ∧
    ∀ s : List Char, (∀ c ∈ s, isDigitC c = true ∨ c = '.' ∨ c = ',') →
      (rfindGt (rfindC ',' s) (rfindC '.' s) = true →
        cleanAmountToFloat s = interpretWith ',' '.' s) ∧
      (rfindGt (rfindC '.' s) (rfindC ',' s) = true →
        cleanAmountToFloat s = interpretWith '.' ',' s) := by
  refine ⟨by decide, by decide, ?_⟩
  intro s hs
  have hnil : ∀ {i : Nat} {c : Char}, rfindC c s = some i → s ≠ [] := by
    intro i c h hcon
    rw [hcon] at h
    exact absurd h (by simp [rfindC_nil])
  have hstrip : pyStrip s = s :=
    pyStrip_eq_self_of_all (fun c hc => amount_not_space (hs c hc))
  have hkeep : s.filter amountKeep = s :=
    filter_eq_self_of_all (fun c hc => amount_keep (hs c hc))
  have hparen : (s.contains '(' && s.contains ')') = false := by
    cases hmem : s.contains '(' with
    | false => simp [hmem]
    | true =>
      have : '(' ∈ s := by simpa using hmem
      exact absurd (amount_not_mark (hs _ this)).1 (by simp)
  have hminus : (s.take 1 = ['-'] || s.take 1 = ['−']) = false := by
    cases s with
    | nil => decide
    | cons c t =>
      have hm := amount_not_mark (hs c (List.mem_cons_self _ _))
      simp [List.take, hm.2.2.1, hm.2.2.2]
  constructor
  · intro hcmp
    obtain ⟨i, hsome⟩ := rfindGt_some hcmp
    have hne : s ≠ [] := hnil hsome
    have hrev : rfindGt (rfindC '.' s) (rfindC ',' s) = false := rfindGt_asymm hcmp
    have hcase : ¬ (rfindC '.' s = none ∧ rfindC ',' s = none) := by
      rw [hsome]; rintro ⟨-, h⟩; exact absurd h (by simp)
    have hdash : dropChar '-' (sepToDot ',' (dropChar '.' s)) =
        sepToDot ',' (dropChar '.' s) := by
      refine dropChar_eq_self ?_
      intro c hc
      rcases mem_sepToDot hc with rfl | hc2
      · decide
      · exact (amount_not_mark (hs c (mem_dropChar hc2))).2.2.1
    unfold cleanAmountToFloat
    rw [if_neg hne]
    simp only [hstrip, hkeep, hparen, hminus, if_neg hne, if_neg hcase, hrev,
      Bool.false_eq_true, if_false, if_pos rfl, if_true, Bool.false_or, Bool.or_self]
    rw [hdash]
    unfold interpretWith
    cases pyFloatOpt (sepToDot ',' (dropChar '.' s)) <;> simp
  · intro hcmp
    obtain ⟨i, hsome⟩ := rfindGt_some hcmp
    have hne : s ≠ [] := hnil hsome
    have hcase : ¬ (rfindC '.' s = none ∧ rfindC ',' s = none) := by
      rw [hsome]; rintro ⟨h, -⟩; exact absurd h (by simp)
    have hdash : dropChar '-' (dropChar ',' s) = dropChar ',' s := by
      refine dropChar_eq_self ?_
      intro c hc
      exact (amount_not_mark (hs c (mem_dropChar hc))).2.2.1
    unfold cleanAmountToFloat
    rw [if_neg hne]
    simp only [hstrip, hkeep, hparen, hminus, if_neg hne, if_neg hcase, hcmp,
      if_true, if_neg (by decide : ¬ ('.' : Char) = ','), hdash, Bool.false_or, Bool.or_self]
    unfold interpretWith
    rw [sepToDot_dot]
    cases pyFloatOpt (dropChar ',' s) <;> simp

/-- Witness for claim C7 at a concrete amount whose only separator is a
comma. -/
theorem claim_C7_witness :
    rfindGt (rfindC ',' "12,34".data) (rfindC '.' "12,34".data) = true ∧
    cleanAmountToFloat "12,34".data = interpretWith ',' '.' "12,34".data :=
  ⟨by decide, (claim_C7.2.2 "12,34".data (by decide)).1 (by decide)⟩

/-- Counterexample for claim C6: parse_date maps an unrecognized input
to none, not to the input unchanged. -/
theorem claim_C6_counterexample :
    parseDate "hello".data = none ∧ parseDate "hello".data ≠ some "hello".data := by
  exact ⟨by decide, by decide⟩

/-- Claim C6 as amended: when no recognized date format accepts the
cleaned input (the six numeric strptime layouts, the two English
month-name layouts, and the Turkish month branch), parse_date returns
none; the embedding is total, so no exception escapes. -/
theorem claim_C6_amended (s : List Char)
    (h1 : strpNumeric '.' true (dateTextClean s) = none)
    (h2 : strpNumeric '.' false (dateTextClean s) = none)
    (h3 : strpNumeric '/' true (dateTextClean s) = none)
    (h4 : strpNumeric '/' false (dateTextClean s) = none)
    (h5 : strpNumeric '-' true (dateTextClean s) = none)
    (h6 : strpNumeric '-' false (dateTextClean s) = none)
    (h7 : strpMonthName monthsFull (dateTextClean s) = none)
    (h8 : strpMonthName monthsAbbr (dateTextClean s) = none)
    (h9 : turkishParse (dateTextClean s) = none) :
    parseDate s = none := by
  unfold parseDate
  split
  · rfl
  · simp only [h1, h2, h3, h4, h5, h6, h7, h8, firstSome, h9]

/-- Witness for claim C6 at a shape-valid but calendar-invalid date. -/
theorem claim_C6_witness : parseDate "31/02/2024".data = none :=
  claim_C6_amended "31/02/2024".data (by decide) (by decide) (by decide) (by decide)
    (by decide) (by decide) (by decide) (by decide) (by decide)

/-- A sub-category lookup succeeds exactly on the table keys. -/
theorem lookupSubs_isSome_iff (m : String) :
    ∀ l : List (String × List String),
    (lookupSubs m l).isSome ↔ m ∈ l.map Prod.fst := by
  intro l
  induction l with
  | nil => simp [lookupSubs]
  | cons kv t ih =>
    obtain ⟨k, v⟩ := kv
    simp only [lookupSubs, List.map_cons, List.mem_cons]
    split
    · rename_i h
      subst h
      simp
    · rename_i h
      rw [ih]
      have : ¬ m = k := fun hh => h hh.symm
      simp [this]

/-- The keys of the income sub-category table are exactly INCOME_MAIN. -/
theorem lookup_income_iff (m : String) :
    (lookupSubs m INCOME_SUB).isSome ↔ m ∈ INCOME_MAIN := by
  rw [lookupSubs_isSome_iff,
    show INCOME_SUB.map Prod.fst = INCOME_MAIN from by decide]

/-- The keys of the expense sub-category table are exactly EXPENSE_MAIN. -/
theorem lookup_expense_iff (m : String) :
    (lookupSubs m EXPENSE_SUB).isSome ↔ m ∈ EXPENSE_MAIN := by
  rw [lookupSubs_isSome_iff,
    show EXPENSE_SUB.map Prod.fst = EXPENSE_MAIN from by decide]

/-- Claim C5: under an expense type the categorizer never returns an
income main category (a chosen income-side main is coerced to
Miscellaneous), and under an income type it never returns an expense
main category (a chosen expense-side main is coerced to Other Income);
in particular a user rule mapping to an income category applied to an
expense-typed transaction never yields that income main. -/
theorem claim_C5 (desc : String) (rules : List UserRule) :
    ((categorize desc (some "expense") rules).1 ∉ INCOME_MAIN) ∧
    ((categorize desc (some "income") rules).1 ∉ EXPENSE_MAIN) ∧
    (∀ m s, chosenCategory (pyNorm desc.data) (some "expense") rules = some (m, s) →
      m ∈ INCOME_MAIN → (categorize desc (some "expense") rules).1 = "Miscellaneous") ∧
    (∀ m s, chosenCategory (pyNorm desc.data) (some "income") rules = some (m, s) →
      m ∈ EXPENSE_MAIN → (categorize desc (some "income") rules).1 = "Other Income") := by
  have hexp : categorize desc (some "expense") rules =
      (match chosenCategory (pyNorm desc.data) (some "expense") rules with
       | some (m, s) => (coerceToSide m "expense", if s = "" then defaultSub m else s)
       | none => ("Miscellaneous", "Unplanned Purchases")) := rfl
  have hinc : categorize desc (some "income") rules =
      (match chosenCategory (pyNorm desc.data) (some "income") rules with
       | some (m, s) => (coerceToSide m "income", if s = "" then defaultSub m else s)
       | none => ("Other Income", "Lottery/Prize")) := rfl
  have hexpS : ∀ m s, chosenCategory (pyNorm desc.data) (some "expense") rules = some (m, s) →
      categorize desc (some "expense") rules =
        (coerceToSide m "expense", if s = "" then defaultSub m else s) := by
    intro m s h
    rw [hexp, h]
  have hexpN : chosenCategory (pyNorm desc.data) (some "expense") rules = none →
      categorize desc (some "expense") rules = ("Miscellaneous", "Unplanned Purchases") := by
    intro h
    rw [hexp, h]
  have hincS : ∀ m s, chosenCategory (pyNorm desc.data) (some "income") rules = some (m, s) →
      categorize desc (some "income") rules =
        (coerceToSide m "income", if s = "" then defaultSub m else s) := by
    intro m s h
    rw [hinc, h]
  have hincN : chosenCategory (pyNorm desc.data) (some "income") rules = none →
      categorize desc (some "income") rules = ("Other Income", "Lottery/Prize") := by
    intro h
    rw [hinc, h]
  have hcoE : ∀ m, coerceToSide m "expense" =
      if (lookupSubs m INCOME_SUB).isSome then "Miscellaneous" else m := by
    intro m
    unfold coerceToSide
    rw [if_neg (by rintro ⟨h, -⟩; exact absurd h (by decide))]
    by_cases hl : (lookupSubs m INCOME_SUB).isSome
    · rw [if_pos ⟨rfl, hl⟩, if_pos hl]
    · rw [if_neg (fun hh => hl hh.2), if_neg hl]
  have hcoI : ∀ m, coerceToSide m "income" =
      if (lookupSubs m EXPENSE_SUB).isSome then "Other Income" else m := by
    intro m
    unfold coerceToSide
    by_cases hl : (lookupSubs m EXPENSE_SUB).isSome
    · rw [if_pos ⟨rfl, hl⟩, if_pos hl]
    · rw [if_neg (fun hh => hl hh.2),
        if_neg (by rintro ⟨h, -⟩; exact absurd h (by decide)), if_neg hl]
  refine ⟨?_, ?_, ?_, ?_⟩
  · cases hc : chosenCategory (pyNorm desc.data) (some "expense") rules with
    | none => rw [hexpN hc]; decide
    | some p =>
      rw [hexpS p.1 p.2 (by rw [hc])]
      show coerceToSide p.1 "expense" ∉ INCOME_MAIN
      rw [hcoE]
      by_cases hl : (lookupSubs p.1 INCOME_SUB).isSome
      · rw [if_pos hl]; decide
      · rw [if_neg hl]
        exact fun hm => hl ((lookup_income_iff p.1).mpr hm)
  · cases hc : chosenCategory (pyNorm desc.data) (some "income") rules with
    | none => rw [hincN hc]; decide
    | some p =>
      rw [hincS p.1 p.2 (by rw [hc])]
      show coerceToSide p.1 "income" ∉ EXPENSE_MAIN
      rw [hcoI]
      by_cases hl : (lookupSubs p.1 EXPENSE_SUB).isSome
      · rw [if_pos hl]; decide
      · rw [if_neg hl]
        exact fun hm => hl ((lookup_expense_iff p.1).mpr hm)
  · intro m s hc hmem
    rw [hexpS m s hc]
    show coerceToSide m "expense" = "Miscellaneous"
    rw [hcoE, if_pos ((lookup_income_iff m).mpr hmem)]
  · intro m s hc hmem
    rw [hincS m s hc]
    show coerceToSide m "income" = "Other Income"
    rw [hcoI, if_pos ((lookup_expense_iff m).mpr hmem)]

/-- Witness for claim C5: a user rule with an income category on an
expense-typed transaction is coerced to Miscellaneous, and a keyword hit
with an expense category on an income-typed transaction is coerced to
Other Income. -/
theorem claim_C5_witness :
    (categorize "x" (some "expense")
      [UserRule.mk "x" "Salary & Wages" "Bonuses" 1]).1 = "Miscellaneous" ∧
    (categorize "migros" (some "income") []).1 = "Other Income" :=
  ⟨(claim_C5 "x" [UserRule.mk "x" "Salary & Wages" "Bonuses" 1]).2.2.1
      "Salary & Wages" "Bonuses" (by decide) (by decide),
   (claim_C5 "migros" []).2.2.2 "Food & Groceries" "Groceries" (by decide) (by decide)⟩

/-- Counterexample for claim C9: the description breakfast matches no
user rule, no MCC marker and no keyword, yet an income-typed
categorization returns (Other Income, Loan Payment) instead of the
claimed (Salary & Wages, Base Salary), because the heuristic tier sees
the transfer cue fast inside breakfast before it looks at the type. -/
theorem claim_C9_counterexample :
    byUserRules (pyNorm "breakfast".data) [] = none ∧
    byMcc (pyNorm "breakfast".data) = none ∧
    byKeywords (pyNorm "breakfast".data) = none ∧
    categorize "breakfast" (some "income") [] = ("Other Income", "Loan Payment") ∧
    ("Other Income", "Loan Payment") ≠ (("Salary & Wages", "Base Salary") : String × String) := by
  refine ⟨by decide, by decide, by decide, by decide, by decide⟩

/-- Claim C9 as amended: when the normalized description matches no user
rule, no MCC marker, no keyword, and also no transfer cue of the
heuristic tier (an IBAN-shaped token or the substrings eft, havale,
fast), an income-typed categorization returns (Salary & Wages, Base
Salary); moreover for an income type some tier always fires, so the
income-side default (Other Income, Lottery/Prize) of the final fallback
is unreachable. -/
theorem claim_C9_amended (desc : String) (rules : List UserRule) :
    (byUserRules (pyNorm desc.data) rules = none →
     byMcc (pyNorm desc.data) = none →
     byKeywords (pyNorm desc.data) = none →
     hasIban (pyNorm desc.data) = false →
     isSub "eft".data (pyNorm desc.data) = false →
     isSub "havale".data (pyNorm desc.data) = false →
     isSub "fast".data (pyNorm desc.data) = false →
     categorize desc (some "income") rules = ("Salary & Wages", "Base Salary")) ∧
    (chosenCategory (pyNorm desc.data) (some "income") rules).isSome = true := by
  constructor
  · intro h1 h2 h3 h4 h5 h6 h7
    have hrules : byRules (pyNorm desc.data) (some "income") =
        some ("Salary & Wages", "Base Salary") := by
      unfold byRules
      rw [if_neg (by simp [h4, h5, h6, h7]), if_pos (by simp)]
    have hchosen : chosenCategory (pyNorm desc.data) (some "income") rules =
        some ("Salary & Wages", "Base Salary") := by
      unfold chosenCategory
      rw [h1, h2, h3, hrules]
    have : categorize desc (some "income") rules =
        (coerceToSide "Salary & Wages" "income",
          if "Base Salary" = "" then defaultSub "Salary & Wages" else "Base Salary") := by
      show (match chosenCategory (pyNorm desc.data) (some "income") rules with
        | some (m, s) => (coerceToSide m "income", if s = "" then defaultSub m else s)
        | none => ("Other Income", "Lottery/Prize")) =
        (coerceToSide "Salary & Wages" "income",
          if "Base Salary" = "" then defaultSub "Salary & Wages" else "Base Salary")
      rw [hchosen]
    rw [this]
    decide
  · unfold chosenCategory
    split
    · rfl
    · split
      · rfl
      · split
        · rfl
        · unfold byRules
          split
          · rfl
          · split
            · rfl
            · rename_i h2
              simp at h2

/-- Witness for claim C9 at a description with no cues at all. -/
theorem claim_C9_witness :
    categorize "zzz" (some "income") [] = ("Salary & Wages", "Base Salary") :=
  (claim_C9_amended "zzz" []).1 (by decide) (by decide) (by decide) (by decide)
    (by decide) (by decide) (by decide)

/-- Counterexample for claim C2: on the sample line the extractor infers
type Income (no expense keyword matches and the amount is positive) and
the flat category Dining, not the claimed expense type with the
two-level pair (Food & Groceries, Coffee/Tea). -/
theorem claim_C2_counterexample :
    (extractFromTextLines "05/03/2024 STARBUCKS 45,50".data).map
        (fun t => (t.transaction_type, t.category)) = [("Income", "Dining")] ∧
    ("Income" : String) ∉ (["expense", "Expense"] : List String) ∧
    ("Dining" : String) ∉ (["Food & Groceries", "Coffee/Tea"] : List String) := by
  refine ⟨by decide, by decide, by decide⟩

/-- Claim C2 as amended: the sample line with default currency TRY
yields exactly one record, with ISO date 2024-03-05, description
STARBUCKS, amount string 45.50, currency TRY, confidence 0.6, inferred
type Income, and the single flat category Dining. -/
theorem claim_C2_amended :
    extractFromTextLines "05/03/2024 STARBUCKS 45,50".data =
      [{ date := "2024-03-05", description := "STARBUCKS", amount := "45.50",
         currency := "TRY", confidence := 3 / 5, transaction_type := "Income",
         category := "Dining" }] := by
  decide

/-- A string made from a non-empty character list is non-empty. -/
theorem mk_ne_empty {l : List Char} (h : l ≠ []) : String.mk l ≠ "" :=
  fun he => h (congrArg String.data he)

/-- A numeric date match is never the empty string. -/
theorem numDateAt_ne_nil {L1 L2 L3 : List Nat} {ok : Char → Bool} {p : Option Char}
    {cs m : List Char} (h : numDateAt L1 ok L2 L3 p cs = some m) : m ≠ [] := by
  unfold numDateAt at h
  split at h
  case isFalse => simp at h
  replace h := firstSome_mem h
  simp only [List.mem_map] at h
  obtain ⟨l1, -, h⟩ := h
  split at h
  case h_2 => simp at h
  split at h
  case h_2 => simp at h
  split at h
  case isFalse => simp at h
  replace h := firstSome_mem h
  simp only [List.mem_map] at h
  obtain ⟨l2, -, h⟩ := h
  split at h
  case h_2 => simp at h
  split at h
  case h_2 => simp at h
  split at h
  case isFalse => simp at h
  replace h := firstSome_mem h
  simp only [List.mem_map] at h
  obtain ⟨l3, -, h⟩ := h
  split at h
  case h_2 => simp at h
  split at h
  case isFalse => simp at h
  simp only [Option.some.injEq] at h
  subst h
  simp

/-- A year-end token match extends a non-empty front part. -/
theorem yearEndTok_ne_nil {pre r m : List Char} (hp : pre ≠ [])
    (h : yearEndTok pre r = some m) : m ≠ [] := by
  unfold yearEndTok at h
  split at h
  case h_2 => simp at h
  split at h
  case isFalse => simp at h
  simp only [Option.some.injEq] at h
  subst h
  simp [hp]

/-- A month-first month-name date match is never empty. -/
theorem dateMonthFirstAt_ne_nil {p : Option Char} {cs m : List Char}
    (h : dateMonthFirstAt p cs = some m) : m ≠ [] := by
  unfold dateMonthFirstAt at h
  split at h
  case isFalse => simp at h
  split at h
  case h_2 => simp at h
  dsimp only at h
  split at h
  case h_2 => simp at h
  replace h := firstSome_mem h
  simp only [List.mem_map] at h
  obtain ⟨l1, -, h⟩ := h
  split at h
  case h_2 => simp at h
  replace h := firstSome_mem h
  simp only [List.mem_cons, List.not_mem_nil, or_false] at h
  rcases h with h | h
  · split at h
    · exact yearEndTok_ne_nil (by simp) h.symm
    · simp at h
  · split at h
    · exact yearEndTok_ne_nil (by simp) h.symm
    · simp at h

/-- A day-first month-name date match is never empty. -/
theorem dateDayFirstAt_ne_nil {p : Option Char} {cs m : List Char}
    (h : dateDayFirstAt p cs = some m) : m ≠ [] := by
  unfold dateDayFirstAt at h
  split at h
  case isFalse => simp at h
  replace h := firstSome_mem h
  simp only [List.mem_map] at h
  obtain ⟨l1, -, h⟩ := h
  split at h
  case h_2 => simp at h
  split at h
  case h_2 => simp at h
  split at h
  case h_2 => simp at h
  split at h
  case h_2 => simp at h
  exact yearEndTok_ne_nil (by simp) h

/-- A text-tier date search hit is never the empty string. -/
theorem mainDateSearch_ne_nil {line m : List Char} (h : mainDateSearch line = some m) :
    m ≠ [] := by
  unfold mainDateSearch at h
  replace h := firstSome_mem h
  simp only [List.mem_cons, List.not_mem_nil, or_false] at h
  rcases h with h | h | h | h | h | h
  all_goals replace h := h.symm
  · obtain ⟨p, t, hm⟩ := reSearchG_mem h
    exact numDateAt_ne_nil hm
  · obtain ⟨p, t, hm⟩ := reSearchG_mem h
    exact numDateAt_ne_nil hm
  · obtain ⟨p, t, hm⟩ := reSearchG_mem h
    exact numDateAt_ne_nil hm
  · obtain ⟨p, t, hm⟩ := reSearchG_mem h
    exact numDateAt_ne_nil hm
  · obtain ⟨p, t, hm⟩ := reSearchG_mem h
    exact dateMonthFirstAt_ne_nil hm
  · obtain ⟨p, t, hm⟩ := reSearchG_mem h
    exact dateDayFirstAt_ne_nil hm

/-- An OCR-tier date search hit is never the empty string. -/
theorem ocrDateSearch_ne_nil {line m : List Char} (h : ocrDateSearch line = some m) :
    m ≠ [] := by
  unfold ocrDateSearch at h
  replace h := firstSome_mem h
  simp only [List.mem_cons, List.not_mem_nil, or_false] at h
  rcases h with h | h
  all_goals replace h := h.symm
  · obtain ⟨p, t, hm⟩ := reSearchG_mem h
    exact numDateAt_ne_nil hm
  · obtain ⟨p, t, hm⟩ := reSearchG_mem h
    exact numDateAt_ne_nil hm

/-- The slash-date standardization never empties a non-empty date. -/
theorem stdSlashDate_ne_nil {ds : List Char} (h : ds ≠ []) : stdSlashDate ds ≠ [] := by
  unfold stdSlashDate
  split
  · split
    · simp
    · exact h
  · split
    · split
      · simp
      · exact h
    · exact h

/-- The OCR date standardization never empties a non-empty date. -/
theorem stdOcrDate_ne_nil {ds : List Char} (h : ds ≠ []) : stdOcrDate ds ≠ [] := by
  unfold stdOcrDate
  split
  · split
    · simp
    · exact h
  · split
    · split
      · simp
      · exact h
    · exact h

/-- The date group captured by the bank and credit-card statement
patterns is never empty. -/
theorem stmtMatchAt_date_ne_nil {ok : Char → Bool} {mn : Bool} {cs : List Char}
    {g : List Char × List Char × List Char} {L : Nat}
    (h : stmtMatchAt ok mn cs = some (g, L)) : g.1 ≠ [] := by
  unfold stmtMatchAt at h
  replace h := firstSome_mem h
  simp only [List.mem_map] at h
  obtain ⟨l1, -, h⟩ := h
  split at h
  case h_2 => simp at h
  split at h
  case h_2 => simp at h
  split at h
  case isFalse => simp at h
  replace h := firstSome_mem h
  simp only [List.mem_map] at h
  obtain ⟨l2, -, h⟩ := h
  split at h
  case h_2 => simp at h
  split at h
  case h_2 => simp at h
  split at h
  case isFalse => simp at h
  replace h := firstSome_mem h
  simp only [List.mem_map] at h
  obtain ⟨l3, -, h⟩ := h
  split at h
  case h_2 => simp at h
  replace h := firstSome_mem h
  simp only [List.mem_map] at h
  obtain ⟨sep1, -, h⟩ := h
  replace h := firstSome_mem h
  simp only [List.mem_map] at h
  obtain ⟨dsp, -, h⟩ := h
  replace h := firstSome_mem h
  simp only [List.mem_map] at h
  obtain ⟨sep2, -, h⟩ := h
  split at h
  case h_2 => simp at h
  simp only [Option.some.injEq, Prod.mk.injEq] at h
  obtain ⟨h1, -⟩ := h
  subst h1
  simp

/-- Every finditer result comes from a successful positional match. -/
theorem reFinditerAux_mem {α : Type} {matchAt : List Char → Option (α × Nat)} :
    ∀ {fuel : Nat} {cs : List Char} {a : α}, a ∈ reFinditerAux matchAt fuel cs →
    ∃ t L, matchAt t = some (a, L) := by
  intro fuel
  induction fuel with
  | zero =>
    intro cs a h
    simp [reFinditerAux] at h
  | succ f ih =>
    intro cs a h
    cases cs with
    | nil =>
      simp only [reFinditerAux] at h
      split at h
      · rename_i a0 hm
        simp only [List.mem_singleton] at h
        subst h
        exact ⟨[], _, hm⟩
      · simp at h
    | cons c t =>
      simp only [reFinditerAux] at h
      split at h
      · rename_i p hm
        rcases List.mem_cons.mp h with rfl | h2
        · exact ⟨c :: t, _, hm⟩
        · exact ih h2
      · exact ih h

/-- Every record built by one text-tier line has the placeholder
category and a non-empty date. -/
theorem mainTextLine_props {lines : List (List Char)} {i : Nat} {line0 : List Char}
    {r : MainTx} (h : mainTextLine lines i line0 = some r) :
    r.category = "Other" ∧ r.date ≠ "" := by
  unfold mainTextLine at h
  dsimp only at h
  split at h
  case isTrue => simp at h
  split at h
  case isTrue => simp at h
  split at h
  case h_1 => simp at h
  rename_i dstr hdate
  split at h
  case h_1 => simp at h
  simp only [Option.some.injEq] at h
  subst h
  refine ⟨rfl, ?_⟩
  exact mk_ne_empty (stdSlashDate_ne_nil (mainDateSearch_ne_nil hdate))

/-- Every text-tier record has the placeholder category and a non-empty
date. -/
theorem extractTextMain_props {doc : List String} {r : MainTx}
    (h : r ∈ extractTextMain doc) : r.category = "Other" ∧ r.date ≠ "" := by
  unfold extractTextMain at h
  rw [List.mem_flatMap] at h
  obtain ⟨page, -, h⟩ := h
  rw [List.mem_filterMap] at h
  obtain ⟨i, -, h⟩ := h
  exact mainTextLine_props h

/-- Every pattern-tier record has the placeholder category and a
non-empty date. -/
theorem extractPatternsMain_props {doc : List String} {r : MainTx}
    (h : r ∈ extractPatternsMain doc) : r.category = "Other" ∧ r.date ≠ "" := by
  unfold extractPatternsMain at h
  have key : ∀ (pages : List String) (acc : List MainTx),
      (∀ u ∈ acc, u.category = "Other" ∧ u.date ≠ "") →
      ∀ u ∈ pages.foldl (fun acc page =>
        let text := page.data
        let bankTxs := (reFinditer (stmtMatchAt (fun c => c ≠ '$' && c ≠ '\n') true) text).map
          (fun g =>
            { date := String.mk (stdSlashDate g.1),
              description := String.mk (pyStrip g.2.1),
              amount := String.mk (cleanPatternAmount g.2.2),
              category := "Other",
              confidence := 3 / 4 })
        let acc := acc ++ bankTxs
        (reFinditer (stmtMatchAt (fun c => c ≠ '\n') false) text).foldl (fun acc g =>
          let rawDate := String.mk g.1
          let amount := String.mk (cleanPatternAmount g.2.2)
          if acc.any (fun e => e.date = rawDate ∧ e.amount = amount) then acc
          else acc ++
            [{ date := String.mk (stdSlashDate g.1),
               description := String.mk (pyStrip g.2.1),
               amount := amount,
               category := "Other",
               confidence := 7 / 10 }]) acc) acc,
      u.category = "Other" ∧ u.date ≠ "" := by
    intro pages
    induction pages with
    | nil => intro acc hacc u hu; exact hacc u hu
    | cons page rest ih =>
      intro acc hacc u hu
      rw [List.foldl_cons] at hu
      refine ih _ ?_ u hu
      have hbank : ∀ u ∈ acc ++ (reFinditer (stmtMatchAt (fun c => c ≠ '$' && c ≠ '\n') true)
          page.data).map
          (fun g =>
            ({ date := String.mk (stdSlashDate g.1),
               description := String.mk (pyStrip g.2.1),
               amount := String.mk (cleanPatternAmount g.2.2),
               category := "Other",
               confidence := 3 / 4 } : MainTx)),
          u.category = "Other" ∧ u.date ≠ "" := by
        intro u hu
        rcases List.mem_append.mp hu with h1 | h1
        · exact hacc u h1
        · rw [List.mem_map] at h1
          obtain ⟨g, hg, rfl⟩ := h1
          obtain ⟨t, L, hm⟩ := reFinditerAux_mem hg
          exact ⟨rfl, mk_ne_empty (stdSlashDate_ne_nil (stmtMatchAt_date_ne_nil hm))⟩
      have hcred : ∀ (ms : List (List Char × List Char × List Char)) (acc2 : List MainTx),
          (∀ u ∈ acc2, u.category = "Other" ∧ u.date ≠ "") →
          (∀ m ∈ ms, ∃ t L, stmtMatchAt (fun c => c ≠ '\n') false t = some (m, L)) →
          ∀ u ∈ ms.foldl (fun acc g =>
            let rawDate := String.mk g.1
            let amount := String.mk (cleanPatternAmount g.2.2)
            if acc.any (fun e => e.date = rawDate ∧ e.amount = amount) then acc
            else acc ++
              [{ date := String.mk (stdSlashDate g.1),
                 description := String.mk (pyStrip g.2.1),
                 amount := amount,
                 category := "Other",
                 confidence := 7 / 10 }]) acc2,
          u.category = "Other" ∧ u.date ≠ "" := by
        intro ms
        induction ms with
        | nil => intro acc2 hacc2 _ u hu; exact hacc2 u hu
        | cons m mrest mih =>
          intro acc2 hacc2 hms u hu
          rw [List.foldl_cons] at hu
          refine mih _ ?_ (fun x hx => hms x (List.mem_cons_of_mem _ hx)) u hu
          intro v hv
          dsimp only at hv
          split at hv
          · exact hacc2 v hv
          · rcases List.mem_append.mp hv with h1 | h1
            · exact hacc2 v h1
            · simp only [List.mem_singleton] at h1
              subst h1
              obtain ⟨t, L, hm⟩ := hms m (List.mem_cons_self _ _)
              exact ⟨rfl, mk_ne_empty (stdSlashDate_ne_nil (stmtMatchAt_date_ne_nil hm))⟩
      exact fun u hu => hcred _ _ hbank (fun m hm => reFinditerAux_mem hm) u hu
  exact key doc [] (by simp) r h

/-- Every record built by one OCR-tier line has the placeholder category
and a non-empty date. -/
theorem ocrLine_props {lines : List (List Char)} {j : Nat} {line0 : List Char}
    {r : MainTx} (h : ocrLine lines j line0 = some r) :
    r.category = "Other" ∧ r.date ≠ "" := by
  unfold ocrLine at h
  dsimp only at h
  split at h
  case isTrue => simp at h
  split at h
  case h_1 => simp at h
  rename_i dstr hdate
  split at h
  case h_1 => simp at h
  simp only [Option.some.injEq] at h
  subst h
  exact ⟨rfl, mk_ne_empty (stdOcrDate_ne_nil (ocrDateSearch_ne_nil hdate))⟩

/-- Every OCR-tier record has the placeholder category and a non-empty
date. -/
theorem ocrTxsMain_props {doc : List String} {ocrText : Nat → String} {r : MainTx}
    (h : r ∈ ocrTxsMain doc ocrText) : r.category = "Other" ∧ r.date ≠ "" := by
  unfold ocrTxsMain at h
  rw [List.mem_flatMap] at h
  obtain ⟨i, -, h⟩ := h
  rw [List.mem_filterMap] at h
  obtain ⟨j, -, h⟩ := h
  exact ocrLine_props h

/-- Deduplication returns a subsequence of its input. -/
theorem dedup_sublist (ts : List MainTx) : (deduplicateTransactions ts).Sublist ts := by
  cases ts with
  | nil => simp [deduplicateTransactions]
  | cons t rest =>
    unfold deduplicateTransactions
    rw [if_neg (by simp)]
    rw [dedupAux_eq_keepFirst (t :: rest) [] [] (by simp)]
    simpa using keepFirst_sublist [] (t :: rest)

/-- The pipeline output is a subsequence of the concatenated tier
outputs: no sorting or reordering happens anywhere. -/
theorem pipeline_sublist (doc : List String) (opts : MainOptions) (ocrText : Nat → String) :
    ((extractTransactionsFromPdf doc opts ocrText).transactions).Sublist
      ((extractTextMain doc ++ extractPatternsMain doc) ++ ocrTxsMain doc ocrText) := by
  have htx : (extractTransactionsFromPdf doc opts ocrText).transactions =
      deduplicateTransactions
        (if opts.enable_ocr && (isScannedDoc doc ||
            (extractTextMain doc ++ extractPatternsMain doc).length < 3) then
          (extractTextMain doc ++ extractPatternsMain doc) ++ ocrTxsMain doc ocrText
        else extractTextMain doc ++ extractPatternsMain doc) := rfl
  rw [htx]
  split
  · exact dedup_sublist _
  · exact (dedup_sublist _).trans (List.sublist_append_left _ _)

/-- Counterexample for claim C1: the page text 01/02/2024 followed by an
amount with no merchant text yields a final output whose records carry
the flat placeholder category Other, which is not a taxonomy pair (and
is outside both main lists), and the pattern-tier record even has an
empty description. -/
theorem claim_C1_counterexample :
    ((extractTransactionsFromPdf ["01/02/2024  10.00"]
        (MainOptions.mk false true 0 (1 / 2) true) (fun _ => "")).transactions).map
        (fun t => (t.category, t.description)) = [("Other", "Unknown"), ("Other", "")] ∧
    ("Other" : String) ∉ ALL_MAIN := by
  refine ⟨by decide, by decide⟩

/-- Claim C1 as amended: every record in the pipeline's final output has
a non-empty date and the single flat category field always equal to the
placeholder Other; the two-level taxonomy is never consulted by this
pipeline, and descriptions can be empty on pattern-tier rows. -/
theorem claim_C1_amended (doc : List String) (opts : MainOptions) (ocrText : Nat → String) :
    ∀ r ∈ (extractTransactionsFromPdf doc opts ocrText).transactions,
      r.category = "Other" ∧ r.date ≠ "" := by
  intro r hr
  rcases List.mem_append.mp ((pipeline_sublist doc opts ocrText).subset hr) with h1 | h1
  · rcases List.mem_append.mp h1 with h2 | h2
    · exact extractTextMain_props h2
    · exact extractPatternsMain_props h2
  · exact ocrTxsMain_props h1

/-- Witness for claim C1 at the first output record of a concrete
document. -/
theorem claim_C1_witness :
    ({ date := "2024-01-02", description := "Unknown", amount := "10.00",
       category := "Other", confidence := 17 / 20 } : MainTx).category = "Other" ∧
    ({ date := "2024-01-02", description := "Unknown", amount := "10.00",
       category := "Other", confidence := 17 / 20 } : MainTx).date ≠ "" :=
  claim_C1_amended ["01/02/2024  10.00"] (MainOptions.mk false true 0 (1 / 2) true)
    (fun _ => "")
    { date := "2024-01-02", description := "Unknown", amount := "10.00",
      category := "Other", confidence := 17 / 20 } (by decide)

/-- Counterexample for claim C8: a page whose two rows appear in
reverse chronological order is emitted unsorted, so adjacent output
dates can decrease. -/
theorem claim_C8_counterexample :
    ((extractTransactionsFromPdf ["06/03/2024 AAA 10.00\n05/03/2024 BBB 20.00"]
        (MainOptions.mk false true 0 (1 / 2) true) (fun _ => "")).transactions).map
        MainTx.date = ["2024-06-03", "2024-05-03"] ∧
    ¬ ("2024-06-03".data ≤ "2024-05-03".data) := by
  refine ⟨by decide, by decide⟩

/-- Claim C8 as amended: the final output is not sorted by date; it
preserves extraction order, being a subsequence of the concatenation of
the text-tier, pattern-tier and OCR-tier outputs in that order. -/
theorem claim_C8_amended (doc : List String) (opts : MainOptions) (ocrText : Nat → String) :
    ((extractTransactionsFromPdf doc opts ocrText).transactions).Sublist
      ((extractTextMain doc ++ extractPatternsMain doc) ++ ocrTxsMain doc ocrText) :=
  pipeline_sublist doc opts ocrText

/-- Lists mapped by functions agreeing on every member flat-map
equally. -/
theorem flatMap_congr_mem {α β : Type} {f g : α → List β} :
    ∀ {l : List α}, (∀ a ∈ l, f a = g a) → l.flatMap f = l.flatMap g := by
  intro l
  induction l with
  | nil => intro _; rfl
  | cons a t ih =>
    intro h
    simp only [List.flatMap_cons]
    rw [h a (List.mem_cons_self _ _), ih (fun x hx => h x (List.mem_cons_of_mem _ hx))]

/-- Counterexample for claim C3: on a one-row document the method label
is combined-with-ocr, never text, and the OCR capability is consulted
even though the text tier found a row (the document looks scanned and
fewer than three rows were found), so the final output depends on the
OCR behaviour. -/
theorem claim_C3_counterexample :
    (extractTransactionsFromPdf ["01/02/2024 FOO 10.00"] defaultOptions
        (fun _ => "")).extraction_method = "combined-with-ocr" ∧
    (extractTransactionsFromPdf ["01/02/2024 FOO 10.00"] defaultOptions
        (fun _ => "")).extraction_method ≠ "text" ∧
    (extractTransactionsFromPdf ["01/02/2024 FOO 10.00"] defaultOptions
        (fun _ => "")).transactions ≠
      (extractTransactionsFromPdf ["01/02/2024 FOO 10.00"] defaultOptions
        (fun _ => "03/04/2024 BAR 99.00")).transactions := by
  refine ⟨by decide, by decide, by decide⟩

/-- Claim C3 as amended, against the cascade of src/pdf_extractor.py:
when every page's table extraction yields no rows and the per-page text
lines yield at least one row, the result is exactly the text rows (with
the request currency) and the OCR capability is never consulted, so the
output is independent of it; the cascade returns no method label at
all (and the src/main.py pipeline labels its result combined or
combined-with-ocr, never text). -/
theorem claim_C3_amended (pages : List PdfxPage) (metadata : Option String)
    (ocr1 ocr2 : Nat → String)
    (hTable : ∀ p ∈ pages, tablePageResults (currencyOf metadata) p = [])
    (hText : pages.flatMap (textPageResults (currencyOf metadata)) ≠ []) :
    extractTransactionsPdfx pages metadata ocr1 =
      pages.flatMap (textPageResults (currencyOf metadata)) ∧
    extractTransactionsPdfx pages metadata ocr1 =
      extractTransactionsPdfx pages metadata ocr2 := by
  have hflat : pages.flatMap (pagePdfxResults (currencyOf metadata)) =
      pages.flatMap (textPageResults (currencyOf metadata)) := by
    refine flatMap_congr_mem ?_
    intro p hp
    unfold pagePdfxResults
    rw [hTable p hp]
    rfl
  have key : ∀ ocr : Nat → String, extractTransactionsPdfx pages metadata ocr =
      pages.flatMap (textPageResults (currencyOf metadata)) := by
    intro ocr
    show (if pages.flatMap (pagePdfxResults (currencyOf metadata)) = [] then
        (List.range pages.length).flatMap (fun i =>
          (extractFromTextLines (ocr i).data).map
            (fun tx => { tx with currency := currencyOf metadata }))
      else pages.flatMap (pagePdfxResults (currencyOf metadata))) =
      pages.flatMap (textPageResults (currencyOf metadata))
    rw [hflat, if_neg hText]
  exact ⟨key ocr1, (key ocr1).trans (key ocr2).symm⟩

/-- Witness for claim C3 on a one-page document with no tables and one
text row. -/
theorem claim_C3_witness :
    extractTransactionsPdfx [PdfxPage.mk [] (some "05/03/2024 STARBUCKS 45,50")] none
        (fun _ => "") =
      [PdfxPage.mk [] (some "05/03/2024 STARBUCKS 45,50")].flatMap
        (textPageResults (currencyOf none)) ∧
    extractTransactionsPdfx [PdfxPage.mk [] (some "05/03/2024 STARBUCKS 45,50")] none
        (fun _ => "") =
      extractTransactionsPdfx [PdfxPage.mk [] (some "05/03/2024 STARBUCKS 45,50")] none
        (fun _ => "01/01/2024 OTHER 1.00") :=
  claim_C3_amended [PdfxPage.mk [] (some "05/03/2024 STARBUCKS 45,50")] none
    (fun _ => "") (fun _ => "01/01/2024 OTHER 1.00") (by decide) (by decide)

end Budgy
